import Mathlib

/-!
Verification development for the Indusferno cargo-economy core
(src/src/industry.h, src/src/stations.h, src/src/error.h).

The repository ships only the headers: the data model (structs, enums,
constants) is embedded from them directly; every function body is
modelled from the specification (spec.md), as marked on each definition.
Floats are modelled as rationals (ℚ).
-/

namespace Indusferno

/-- Error codes, from src/src/error.h (`enum error_code_t`). -/
inductive error_code_t where
  | ERR_INDUSTRY_BAD_INDEX
  | ERR_INDUSTRY_BAD_TYPE
  | ERR_INDUSTRY_BAD_ACCEPT
  deriving DecidableEq

/-- From src/src/industry.h: `#define MAX_INDUS_MATS 5`. -/
abbrev MAX_INDUS_MATS : ℕ := 5

/-- From src/src/industry.h: `#define MAX_INDUS_TYPES 32`. -/
abbrev MAX_INDUS_TYPES : ℕ := 32

/-- From src/src/industry.h: `#define MAX_INDUSTRIES 128`. -/
abbrev MAX_INDUSTRIES : ℕ := 128

/-- From src/src/stations.h: `#define MAX_CARGO_LOADS 32`. -/
abbrev MAX_CARGO_LOADS : ℕ := 32

/-- From src/src/industry.h: `enum industry_supply_type_t`. -/
inductive industry_supply_type_t where
  | ISUPTYPE_UNKNOWN
  | ISUPTYPE_BOOST
  | ISUPTYPE_ASSEMBLE
  | ISUPTYPE_CONVERT
  deriving DecidableEq

/-- From src/src/industry.h: `struct industry_type_t`.
The `accepts`/`supplies` arrays hold cargo-type indices with a
`(size_t)-1` "no slot" sentinel; the sentinel is modelled as `none`.
The string fields `label` and `spawner_type` play no role in any claim
and are omitted. -/
structure industry_type_t where
  supply_type : industry_supply_type_t
  base_production : ℚ
  boost_rate : ℚ
  boost_threshold : ℚ
  reach : ℚ
  accepts : Fin MAX_INDUS_MATS → Option ℕ
  accept_weight : Fin MAX_INDUS_MATS → ℚ
  supplies : Fin MAX_INDUS_MATS → Option ℕ
  supply_weight : Fin MAX_INDUS_MATS → ℚ

/-- From src/src/industry.h: `struct industry_t`. -/
structure industry_t where
  type : ℕ
  material : Fin MAX_INDUS_MATS → ℚ
  material_tot : ℚ
  pos_x : ℚ
  pos_y : ℚ
  produced : Fin MAX_INDUS_MATS → ℚ
  transported : Fin MAX_INDUS_MATS → ℚ

/-- From src/src/stations.h: `struct station_load_t`. -/
structure station_load_t where
  cargo_type : ℕ
  amount : ℚ
  origin : ℕ
  deriving DecidableEq

/-- From src/src/stations.h: `struct station_t`.
The fixed array `cargo_loads[MAX_CARGO_LOADS]` together with
`num_cargo_loads` is modelled as a list of length at most
`MAX_CARGO_LOADS` (the occupied prefix). -/
structure station_t where
  pos_x : ℚ
  pos_y : ℚ
  cargo_loads : List station_load_t
  deriving DecidableEq

/-- The declared accept slots of an industry type: the slots before the
first "no slot" sentinel, per the terminator convention documented on
`industry_type_t.accepts`. -/
def declaredAccepts (t : industry_type_t) : List (Fin MAX_INDUS_MATS) :=
  (List.finRange MAX_INDUS_MATS).takeWhile (fun i => (t.accepts i).isSome)

/-- The declared supply slots of an industry type: the slots before the
first "no slot" sentinel, per the terminator convention documented on
`industry_type_t.supplies`. -/
def declaredSupplies (t : industry_type_t) : List (Fin MAX_INDUS_MATS) :=
  (List.finRange MAX_INDUS_MATS).takeWhile (fun i => (t.supplies i).isSome)

/-- Modelled from the spec (§4.2): body of `industry_is_boosted` is not
in the repository (header declaration only).
Boost: boosted iff the sum of accumulated material over the declared
accept slots is at least `boost_threshold`. Assemble: never boosted.
Convert: boosted iff every declared accept slot holds nonzero material.
Unknown: false. -/
def industry_is_boosted (indus : industry_t) (indtype : industry_type_t) : Bool :=
  match indtype.supply_type with
  | .ISUPTYPE_BOOST =>
      decide (indtype.boost_threshold ≤ ((declaredAccepts indtype).map indus.material).sum)
  | .ISUPTYPE_ASSEMBLE => false
  | .ISUPTYPE_CONVERT =>
      (declaredAccepts indtype).all (fun s => decide (indus.material s ≠ 0))
  | .ISUPTYPE_UNKNOWN => false

/-- Minimum of a list of rationals (0 for the empty list); used for the
Assemble policy's lowest-common-denominator computation. -/
def ratioMin : List ℚ → ℚ
  | [] => 0
  | x :: xs => xs.foldl min x

/-- Modelled from the spec (§4.3): the production-decision core of
`industry_check_production`, whose body is not in the repository.
Returns the produced amount (in production units) and the per-slot
material remaining after consumption.
Boost: amount `base_production`, times `boost_rate` when boosted; no
consumption. Assemble: if every declared accept slot holds strictly
positive material, the amount is the minimum over declared slots of
`material[s] / accept_weight[s]` and `amount * accept_weight[s]` is
consumed from every declared slot; otherwise nothing is produced or
consumed. Convert: amount is the sum over declared slots with positive
material of `material[s] * accept_weight[s]`, times `boost_rate` when
boosted; contributing slots are consumed to zero. Unknown: nothing. -/
def production_decision (indus : industry_t) (indtype : industry_type_t) :
    ℚ × (Fin MAX_INDUS_MATS → ℚ) :=
  match indtype.supply_type with
  | .ISUPTYPE_BOOST =>
      (indtype.base_production *
        (if industry_is_boosted indus indtype then indtype.boost_rate else 1),
       indus.material)
  | .ISUPTYPE_ASSEMBLE =>
      let decls := declaredAccepts indtype
      if decls.all (fun s => decide (0 < indus.material s)) then
        let q := ratioMin (decls.map (fun s => indus.material s / indtype.accept_weight s))
        (q, fun s => if s ∈ decls then indus.material s - q * indtype.accept_weight s
                     else indus.material s)
      else (0, indus.material)
  | .ISUPTYPE_CONVERT =>
      let contributing :=
        (declaredAccepts indtype).filter (fun s => decide (0 < indus.material s))
      let base := (contributing.map (fun s => indus.material s * indtype.accept_weight s)).sum
      let amt := if industry_is_boosted indus indtype then base * indtype.boost_rate else base
      (amt, fun s => if s ∈ contributing then 0 else indus.material s)
  | .ISUPTYPE_UNKNOWN => (0, indus.material)

/-- Modelled from the spec (§4.6): core of `station_add_cargo`, whose
body is not in the repository. Search the load list for an entry
matching (cargo type, origin); when found, return the list with that
entry's amount incremented; otherwise `none`. -/
def findMergeLoad : List station_load_t → ℕ → ℕ → ℚ → Option (List station_load_t)
  | [], _, _, _ => none
  | l :: ls, ct, org, a =>
      if l.cargo_type = ct ∧ l.origin = org then
        some ({ l with amount := l.amount + a } :: ls)
      else (findMergeLoad ls ct org a).map (fun ls2 => l :: ls2)

/-- Modelled from the spec (§4.6): effect of `station_add_cargo` on a
single station, whose body is not in the repository. Merge into a
matching (cargo type, origin) entry when one exists; else append a new
entry when capacity (`MAX_CARGO_LOADS`) remains; else drop the
delivery. -/
def station_add_cargo_one (st : station_t) (ct org : ℕ) (amount : ℚ) : station_t :=
  match findMergeLoad st.cargo_loads ct org amount with
  | some ls => { st with cargo_loads := ls }
  | none =>
      if st.cargo_loads.length < MAX_CARGO_LOADS then
        { st with cargo_loads := st.cargo_loads ++ [⟨ct, amount, org⟩] }
      else st

/-- Modelled from the spec (§4.6, §7): `station_add_cargo`, whose body
is not in the repository. An `origin` of `-1` defaults to the station
itself, per the header documentation. A station index outside the
populated range reports `BadIndex` and no-ops. Capacity exhaustion
drops the delivery: `error_code_t` (src/src/error.h) defines no
capacity kind, so the drop cannot be reported and is modelled as
silent, per §7 "degrades silently". -/
def station_add_cargo (stations : List station_t) (ind_station ct : ℕ)
    (origin : Int) (amount : ℚ) : List station_t × Option error_code_t :=
  let org : ℕ := if origin = -1 then ind_station else origin.toNat
  match stations[ind_station]? with
  | none => (stations, some .ERR_INDUSTRY_BAD_INDEX)
  | some st => (stations.set ind_station (station_add_cargo_one st ct org amount), none)

/-- Add cargo to the station at index `i` of a station list, used by the
cargo distributor; out-of-range indices no-op. -/
def stationsAdd (stations : List station_t) (i ct org : ℕ) (a : ℚ) : List station_t :=
  match stations[i]? with
  | some st => stations.set i (station_add_cargo_one st ct org a)
  | none => stations

/-- Modelled from the spec (§4.6): `stations_get_cargo_amount`, whose
body is not in the repository: the sum of the amounts of all loads with
a matching cargo type, irrespective of origin. -/
def stations_get_cargo_amount (st : station_t) (ct : ℕ) : ℚ :=
  ((st.cargo_loads.filter (fun l => l.cargo_type == ct)).map (fun l => l.amount)).sum

/-- Sum of the amounts of a load list's entries with the given
(cargo type, origin) key. -/
def loadKeySum (loads : List station_load_t) (ct org : ℕ) : ℚ :=
  ((loads.filter (fun l => l.cargo_type == ct && l.origin == org)).map (fun l => l.amount)).sum

/-- Reach test of the cargo distributor (§4.4): the station's position
lies within `reach` of the industry's position (compared on squared
distances). -/
def within_reach (px py reach sx sy : ℚ) : Bool :=
  decide ((sx - px) ^ 2 + (sy - py) ^ 2 ≤ reach ^ 2)

/-- Modelled from the spec (§4.4): the set of station indices that are
within `reach` of the industry and whose external acceptance predicate
accepts the cargo type. -/
def matching_stations (accept_pred : ℕ → ℕ → Bool) (stations : List station_t)
    (px py reach : ℚ) (ct : ℕ) : List ℕ :=
  (List.range stations.length).filter (fun i =>
    match stations[i]? with
    | some st => within_reach px py reach st.pos_x st.pos_y && accept_pred i ct
    | none => false)

/-- Modelled from the spec (§4.4): the per-slot distribution step of
`industry_make_production`. Each station in the matching list `ms`
receives `ca / ms.length` through the station ledger's add operation;
with no matching stations the station list is untouched. -/
def distribute_slot (stations : List station_t) (ms : List ℕ) (ct self_idx : ℕ)
    (ca : ℚ) : List station_t :=
  ms.foldl (fun sts i => stationsAdd sts i ct self_idx (ca / ms.length)) stations

/-- Modelled from the spec (§4.4): the body of the per-supply-slot fold
of `industry_make_production`. Computes `cargo_amount`, finds matching
stations, distributes evenly with origin set to the industry's own
index, updates `produced` and `transported`. -/
def mp_step (accept_pred : ℕ → ℕ → Bool) (self_idx : ℕ) (px py : ℚ)
    (indtype : industry_type_t) (amount : ℚ)
    (p : industry_t × List station_t) (s : Fin MAX_INDUS_MATS) :
    industry_t × List station_t :=
  let ct := (indtype.supplies s).getD 0
  let ca := amount * indtype.supply_weight s
  let ms := matching_stations accept_pred p.2 px py indtype.reach ct
  let ind :=
    { p.1 with
      produced := Function.update p.1.produced s (p.1.produced s + ca),
      transported :=
        if ms.isEmpty then p.1.transported
        else Function.update p.1.transported s 1 }
  (ind, distribute_slot p.2 ms ct self_idx ca)

/-- Modelled from the spec (§4.4): `industry_make_production`, whose
body is not in the repository. Folds the distribution step over the
declared supply slots. -/
def industry_make_production (accept_pred : ℕ → ℕ → Bool) (self_idx : ℕ)
    (stations : List station_t) (indus : industry_t) (indtype : industry_type_t)
    (amount : ℚ) : industry_t × List station_t :=
  (declaredSupplies indtype).foldl
    (mp_step accept_pred self_idx indus.pos_x indus.pos_y indtype amount)
    (indus, stations)

/-- Modelled from the spec (§4.3, §3): the material-spending step of
`industry_check_production`: install the post-consumption per-slot
material decided by `production_decision` and debit `material_tot` by
the consumed total, keeping the §3 invariant in sync. -/
def industry_spend (indus : industry_t) (indtype : industry_type_t) : industry_t :=
  { indus with
    material := (production_decision indus indtype).2,
    material_tot := indus.material_tot -
      ((List.finRange MAX_INDUS_MATS).map
        (fun s => indus.material s - (production_decision indus indtype).2 s)).sum }

/-- Modelled from the spec (§4.3): `industry_check_production`, whose
body is not in the repository: spend the decided material, then forward
a positive decided amount to the cargo distributor. -/
def industry_check_production (accept_pred : ℕ → ℕ → Bool) (self_idx : ℕ)
    (stations : List station_t) (indus : industry_t) (indtype : industry_type_t) :
    industry_t × List station_t :=
  if 0 < (production_decision indus indtype).1 then
    industry_make_production accept_pred self_idx stations (industry_spend indus indtype)
      indtype (production_decision indus indtype).1
  else (industry_spend indus indtype, stations)

/-- The world state the acceptance gateway operates on: the industry
type catalog (`industry_types`) and the populated prefix of the
`industries` array (`num_industries` is its length). -/
structure world_t where
  industry_types : List industry_type_t
  industries : List industry_t

/-- Modelled from the spec (§4.5): `industry_accept_cargo`, whose body
is not in the repository. Validates the industry index (`BadIndex`),
the industry's type (`BadType`: unresolvable type index or the
`Unknown` policy tag), and the accept slot (`BadAccept`: out of range
or the "no slot" sentinel); on success adds
`amount * accept_weight[slot]` to `material[slot]` and to
`material_tot`; on failure performs no mutation. -/
def industry_accept_cargo (w : world_t) (ind_industry ind_accept : ℕ) (amount : ℚ) :
    world_t × Option error_code_t :=
  match w.industries[ind_industry]? with
  | none => (w, some .ERR_INDUSTRY_BAD_INDEX)
  | some ind =>
    match w.industry_types[ind.type]? with
    | none => (w, some .ERR_INDUSTRY_BAD_TYPE)
    | some t =>
      if t.supply_type = .ISUPTYPE_UNKNOWN then (w, some .ERR_INDUSTRY_BAD_TYPE)
      else if h : ind_accept < MAX_INDUS_MATS then
        match t.accepts ⟨ind_accept, h⟩ with
        | none => (w, some .ERR_INDUSTRY_BAD_ACCEPT)
        | some _ =>
          let slot : Fin MAX_INDUS_MATS := ⟨ind_accept, h⟩
          let delta := amount * t.accept_weight slot
          let ind2 :=
            { ind with
              material := Function.update ind.material slot (ind.material slot + delta),
              material_tot := ind.material_tot + delta }
          ({ w with industries := w.industries.set ind_industry ind2 }, none)
      else (w, some .ERR_INDUSTRY_BAD_ACCEPT)

/-- The successful-path update of `industry_accept_cargo`: add
`amount * accept_weight[slot]` to `material[slot]` and the same delta
to `material_tot`. -/
def accepted_industry (ind : industry_t) (t : industry_type_t)
    (slot : Fin MAX_INDUS_MATS) (a : ℚ) : industry_t :=
  { ind with
    material := Function.update ind.material slot
      (ind.material slot + a * t.accept_weight slot),
    material_tot := ind.material_tot + a * t.accept_weight slot }

/-- The §3 invariant: `material_tot` equals the sum of the per-slot
material values. -/
def material_inv (ind : industry_t) : Prop :=
  ind.material_tot = ∑ s : Fin MAX_INDUS_MATS, ind.material s

/-- The §3 station invariant: no two loads share a
(cargo type, origin) key. -/
def loadKeysNodup (loads : List station_load_t) : Prop :=
  (loads.map (fun l => (l.cargo_type, l.origin))).Nodup

/-- Whether a load list holds an entry with the given key. -/
def hasLoadKey (loads : List station_load_t) (ct org : ℕ) : Bool :=
  loads.any (fun l => l.cargo_type == ct && l.origin == org)

/-- Number of loads carrying the given (cargo type, origin) key. -/
def loadKeyCount (loads : List station_load_t) (ct org : ℕ) : ℕ :=
  (loads.filter (fun l => l.cargo_type == ct && l.origin == org)).length

/-- A Boost-policy industry type used in concrete instantiations:
the concrete scenario of spec §8 (base 10, boost rate 2, threshold 50,
one accept slot of weight 1, one supply slot of weight 1/2). -/
def tyBoostEx : industry_type_t :=
  { supply_type := .ISUPTYPE_BOOST
    base_production := 10
    boost_rate := 2
    boost_threshold := 50
    reach := 10
    accepts := fun s => if s = 0 then some 3 else none
    accept_weight := fun _ => 1
    supplies := fun s => if s = 0 then some 7 else none
    supply_weight := fun _ => (1 : ℚ) / 2 }

/-- An industry type with the invalid `Unknown` policy tag. -/
def tyUnknownEx : industry_type_t := { tyBoostEx with supply_type := .ISUPTYPE_UNKNOWN }

/-- A fresh industry instance of type index 0 used in concrete
instantiations. -/
def indEx : industry_t :=
  { type := 0
    material := fun _ => 0
    material_tot := 0
    pos_x := 0
    pos_y := 0
    produced := fun _ => 0
    transported := fun _ => 0 }

/-- A world with one valid Boost-type catalog entry, one `Unknown`
catalog entry, and three industries: a valid one, one whose type index
is unresolvable, and one whose type has the `Unknown` tag. -/
def wEx : world_t :=
  { industry_types := [tyBoostEx, tyUnknownEx]
    industries := [indEx, { indEx with type := 5 }, { indEx with type := 1 }] }

/-- The industry of the §8 concrete scenario after accepting 60 units
into accept slot 0: 60 material units, above the boost threshold 50. -/
def ind60 : industry_t :=
  { indEx with material := fun s => if s = 0 then 60 else 0, material_tot := 60 }

/-- An Assemble-policy industry type with two declared accept slots of
weights 1 and 2 (the §8 assemble scenario). -/
def tyAssembleEx : industry_type_t :=
  { tyBoostEx with
    supply_type := .ISUPTYPE_ASSEMBLE,
    accepts := fun s => if s.val < 2 then some s.val else none,
    accept_weight := fun s => if s = 0 then 1 else 2 }

/-- A Convert-policy industry type with the same two accept slots and
boost rate 3. -/
def tyConvertEx : industry_type_t :=
  { tyAssembleEx with supply_type := .ISUPTYPE_CONVERT, boost_rate := 3 }

/-- An industry holding material [4, 10] in its two declared accept
slots (the §8 assemble scenario). -/
def indAsmEx : industry_t :=
  { indEx with
    material := fun s => if s = 0 then 4 else if s = 1 then 10 else 0,
    material_tot := 14 }

/-- A Boost-policy industry type with a single declared supply slot of
cargo type 100 and supply weight 1, used for concrete distribution
scenarios. -/
def tySupplyEx : industry_type_t :=
  { tyBoostEx with
    supplies := fun s => if s = 0 then some 100 else none,
    supply_weight := fun _ => 1 }

/-- An empty station at the origin, within reach of `indEx`. -/
def stEx : station_t := { pos_x := 0, pos_y := 0, cargo_loads := [] }

/-- Two station lists have the same shape when they have the same
length and pairwise equal positions: the cargo distributor's matching
query cannot tell them apart. -/
def same_shape (sts sts2 : List station_t) : Prop :=
  sts.length = sts2.length ∧
  ∀ i : ℕ, sts[i]?.map station_t.pos_x = sts2[i]?.map station_t.pos_x ∧
    sts[i]?.map station_t.pos_y = sts2[i]?.map station_t.pos_y

/-- An empty station used in concrete instantiations. -/
def emptyStation : station_t := { pos_x := 3, pos_y := 4, cargo_loads := [] }

/-- A station whose load list is at full capacity (32 entries), with
keys disjoint from cargo type 100: deliveries of cargo type 100 to it
are dropped. -/
def fullStation : station_t :=
  { pos_x := 0, pos_y := 0,
    cargo_loads := (List.range MAX_CARGO_LOADS).map (fun k => ⟨k, 1, 999⟩) }

-- Helper lemmas on lists and the station ledger.

lemma list_set_self {α : Type} (l : List α) (i : ℕ) (a : α) (h : l[i]? = some a) :
    l.set i a = l := by
  induction l generalizing i with
  | nil => rfl
  | cons x xs ih =>
    cases i with
    | zero => simp_all
    | succ n => simp_all [List.set]

lemma loadKeySum_cons (l : station_load_t) (ls : List station_load_t) (ct org : ℕ) :
    loadKeySum (l :: ls) ct org =
      (if l.cargo_type == ct && l.origin == org then l.amount else 0) +
        loadKeySum ls ct org := by
  by_cases h : (l.cargo_type == ct && l.origin == org) <;>
    simp [loadKeySum, List.filter_cons, h]

lemma loadKeyCount_cons (l : station_load_t) (ls : List station_load_t) (ct org : ℕ) :
    loadKeyCount (l :: ls) ct org =
      (if l.cargo_type == ct && l.origin == org then 1 else 0) +
        loadKeyCount ls ct org := by
  by_cases h : (l.cargo_type == ct && l.origin == org) <;>
    simp [loadKeyCount, List.filter_cons, h, Nat.add_comm]

lemma loadKeySum_append (ls1 ls2 : List station_load_t) (ct org : ℕ) :
    loadKeySum (ls1 ++ ls2) ct org = loadKeySum ls1 ct org + loadKeySum ls2 ct org := by
  simp [loadKeySum, List.filter_append]

lemma hasLoadKey_false_keySum (ls : List station_load_t) (ct org : ℕ)
    (h : hasLoadKey ls ct org = false) : loadKeySum ls ct org = 0 := by
  induction ls with
  | nil => rfl
  | cons l ls ih =>
    simp only [hasLoadKey, List.any_cons, Bool.or_eq_false_iff] at h
    rw [loadKeySum_cons, h.1, ih (by simpa [hasLoadKey] using h.2)]
    simp

lemma hasLoadKey_false_keyCount (ls : List station_load_t) (ct org : ℕ)
    (h : hasLoadKey ls ct org = false) : loadKeyCount ls ct org = 0 := by
  induction ls with
  | nil => rfl
  | cons l ls ih =>
    simp only [hasLoadKey, List.any_cons, Bool.or_eq_false_iff] at h
    rw [loadKeyCount_cons, h.1, ih (by simpa [hasLoadKey] using h.2)]
    simp

lemma findMergeLoad_cons (l : station_load_t) (ls : List station_load_t) (ct org : ℕ) (a : ℚ) :
    findMergeLoad (l :: ls) ct org a =
      if l.cargo_type = ct ∧ l.origin = org then
        some ({ l with amount := l.amount + a } :: ls)
      else (findMergeLoad ls ct org a).map (fun ls2 => l :: ls2) := rfl

lemma findMergeLoad_none_iff (ls : List station_load_t) (ct org : ℕ) (a : ℚ) :
    findMergeLoad ls ct org a = none ↔ hasLoadKey ls ct org = false := by
  induction ls with
  | nil => simp [findMergeLoad, hasLoadKey]
  | cons l ls ih =>
    rw [findMergeLoad_cons]
    by_cases hc : (l.cargo_type = ct ∧ l.origin = org)
    · simp [hasLoadKey, if_pos hc, hc.1, hc.2]
    · rw [if_neg hc, Option.map_eq_none']
      rw [Decidable.not_and_iff_or_not] at hc
      simp only [hasLoadKey, List.any_cons, Bool.or_eq_false_iff]
      constructor
      · intro h
        refine ⟨?_, by simpa [hasLoadKey] using ih.mp h⟩
        rcases hc with hc | hc <;> simp [hc]
      · intro h
        exact ih.mpr (by simpa [hasLoadKey] using h.2)

lemma findMergeLoad_some_keySum (ls ls' : List station_load_t) (ct org : ℕ) (a : ℚ)
    (h : findMergeLoad ls ct org a = some ls') :
    loadKeySum ls' ct org = loadKeySum ls ct org + a := by
  induction ls generalizing ls' with
  | nil => simp [findMergeLoad] at h
  | cons l ls ih =>
    rw [findMergeLoad_cons] at h
    by_cases hc : (l.cargo_type = ct ∧ l.origin = org)
    · rw [if_pos hc, Option.some_inj] at h
      subst h
      rw [loadKeySum_cons, loadKeySum_cons]
      have hb : ((l.cargo_type == ct) && (l.origin == org)) = true := by
        simp [hc.1, hc.2]
      simp only [hb, if_pos]
      ring
    · rw [if_neg hc, Option.map_eq_some'] at h
      obtain ⟨ls2, h2, rfl⟩ := h
      rw [loadKeySum_cons, loadKeySum_cons, ih ls2 h2]
      ring

lemma findMergeLoad_some_keyCount (ls ls' : List station_load_t) (ct org : ℕ) (a : ℚ)
    (h : findMergeLoad ls ct org a = some ls') :
    loadKeyCount ls' ct org = loadKeyCount ls ct org := by
  induction ls generalizing ls' with
  | nil => simp [findMergeLoad] at h
  | cons l ls ih =>
    rw [findMergeLoad_cons] at h
    by_cases hc : (l.cargo_type = ct ∧ l.origin = org)
    · rw [if_pos hc, Option.some_inj] at h
      subst h
      rw [loadKeyCount_cons, loadKeyCount_cons]
    · rw [if_neg hc, Option.map_eq_some'] at h
      obtain ⟨ls2, h2, rfl⟩ := h
      rw [loadKeyCount_cons, loadKeyCount_cons, ih ls2 h2]

lemma findMergeLoad_some_keys (ls ls' : List station_load_t) (ct org : ℕ) (a : ℚ)
    (h : findMergeLoad ls ct org a = some ls') :
    ls'.map (fun l => (l.cargo_type, l.origin)) = ls.map (fun l => (l.cargo_type, l.origin)) := by
  induction ls generalizing ls' with
  | nil => simp [findMergeLoad] at h
  | cons l ls ih =>
    rw [findMergeLoad_cons] at h
    by_cases hc : (l.cargo_type = ct ∧ l.origin = org)
    · rw [if_pos hc, Option.some_inj] at h
      subst h
      simp
    · rw [if_neg hc, Option.map_eq_some'] at h
      obtain ⟨ls2, h2, rfl⟩ := h
      simp [ih ls2 h2]

lemma findMergeLoad_some_mem (ls ls' : List station_load_t) (ct org : ℕ) (a : ℚ)
    (h : findMergeLoad ls ct org a = some ls') :
    ∀ l ∈ ls', l ∈ ls ∨ (l.cargo_type = ct ∧ l.origin = org) := by
  induction ls generalizing ls' with
  | nil => simp [findMergeLoad] at h
  | cons l ls ih =>
    rw [findMergeLoad_cons] at h
    by_cases hc : (l.cargo_type = ct ∧ l.origin = org)
    · rw [if_pos hc, Option.some_inj] at h
      subst h
      intro x hx
      rcases List.mem_cons.mp hx with rfl | hx2
      · exact Or.inr ⟨hc.1, hc.2⟩
      · exact Or.inl (List.mem_cons_of_mem _ hx2)
    · rw [if_neg hc, Option.map_eq_some'] at h
      obtain ⟨ls2, h2, rfl⟩ := h
      intro x hx
      rcases List.mem_cons.mp hx with rfl | hx2
      · exact Or.inl (List.mem_cons_self _ _)
      · rcases ih ls2 h2 x hx2 with h3 | h3
        · exact Or.inl (List.mem_cons_of_mem _ h3)
        · exact Or.inr h3

lemma hasLoadKey_false_not_mem (ls : List station_load_t) (ct org : ℕ)
    (h : hasLoadKey ls ct org = false) :
    (ct, org) ∉ ls.map (fun l => (l.cargo_type, l.origin)) := by
  simp only [hasLoadKey, List.any_eq_false] at h
  intro hm
  rcases List.mem_map.mp hm with ⟨l, hl, he⟩
  have h2 := h l hl
  rw [Prod.mk.injEq] at he
  simp [he.1, he.2] at h2

lemma station_add_cargo_one_pos (st : station_t) (ct org : ℕ) (a : ℚ) :
    (station_add_cargo_one st ct org a).pos_x = st.pos_x ∧
    (station_add_cargo_one st ct org a).pos_y = st.pos_y := by
  unfold station_add_cargo_one
  cases findMergeLoad st.cargo_loads ct org a
  · dsimp only
    split <;> exact ⟨rfl, rfl⟩
  · exact ⟨rfl, rfl⟩

lemma station_add_cargo_one_keySum (st : station_t) (ct org : ℕ) (a : ℚ)
    (h : hasLoadKey st.cargo_loads ct org = true ∨ st.cargo_loads.length < MAX_CARGO_LOADS) :
    loadKeySum (station_add_cargo_one st ct org a).cargo_loads ct org =
      loadKeySum st.cargo_loads ct org + a := by
  unfold station_add_cargo_one
  cases hf : findMergeLoad st.cargo_loads ct org a with
  | some ls => exact findMergeLoad_some_keySum _ _ _ _ _ hf
  | none =>
    have hk : hasLoadKey st.cargo_loads ct org = false :=
      (findMergeLoad_none_iff _ _ _ _).mp hf
    rcases h with h | h
    · rw [hk] at h
      cases h
    · dsimp only
      rw [if_pos h]
      dsimp only
      rw [loadKeySum_append, loadKeySum_cons]
      simp [loadKeySum]

lemma station_add_cargo_one_keysNodup (st : station_t) (ct org : ℕ) (a : ℚ)
    (h : loadKeysNodup st.cargo_loads) :
    loadKeysNodup (station_add_cargo_one st ct org a).cargo_loads := by
  unfold station_add_cargo_one
  cases hf : findMergeLoad st.cargo_loads ct org a with
  | some ls =>
    unfold loadKeysNodup at h ⊢
    dsimp only
    rw [findMergeLoad_some_keys _ _ _ _ _ hf]
    exact h
  | none =>
    have hk : hasLoadKey st.cargo_loads ct org = false :=
      (findMergeLoad_none_iff _ _ _ _).mp hf
    dsimp only
    split
    · unfold loadKeysNodup at h ⊢
      dsimp only
      rw [List.map_append]
      simp only [List.map_cons, List.map_nil]
      simp [List.nodup_append, h, hasLoadKey_false_not_mem _ _ _ hk]
    · exact h

lemma station_add_cargo_one_mem (st : station_t) (ct org : ℕ) (a : ℚ) :
    ∀ l ∈ (station_add_cargo_one st ct org a).cargo_loads,
      l ∈ st.cargo_loads ∨ (l.cargo_type = ct ∧ l.origin = org) := by
  unfold station_add_cargo_one
  cases hf : findMergeLoad st.cargo_loads ct org a with
  | some ls => exact findMergeLoad_some_mem _ _ _ _ _ hf
  | none =>
    dsimp only
    split
    · intro l hl
      rcases List.mem_append.mp hl with h | h
      · exact Or.inl h
      · rcases List.mem_cons.mp h with rfl | h2
        · exact Or.inr ⟨rfl, rfl⟩
        · cases h2
    · intro l hl
      exact Or.inl hl

lemma station_add_cargo_one_full (st : station_t) (ct org : ℕ) (a : ℚ)
    (hk : hasLoadKey st.cargo_loads ct org = false)
    (hfull : ¬ st.cargo_loads.length < MAX_CARGO_LOADS) :
    station_add_cargo_one st ct org a = st := by
  unfold station_add_cargo_one
  rw [(findMergeLoad_none_iff st.cargo_loads ct org a).mpr hk]
  dsimp only
  rw [if_neg hfull]

lemma station_add_cargo_nat_org (sts : List station_t) (i ct org : ℕ) (a : ℚ)
    (st : station_t) (h : sts[i]? = some st) :
    station_add_cargo sts i ct (org : Int) a =
      (sts.set i (station_add_cargo_one st ct org a), none) := by
  have hne : ¬ ((org : Int) = -1) := by omega
  simp [station_add_cargo, h, hne]

lemma station_add_cargo_neg_one (sts : List station_t) (i ct : ℕ) (a : ℚ)
    (st : station_t) (h : sts[i]? = some st) :
    station_add_cargo sts i ct (-1) a =
      (sts.set i (station_add_cargo_one st ct i a), none) := by
  simp [station_add_cargo, h]

lemma station_add_cargo_valid_fst (sts : List station_t) (i ct : ℕ) (origin : Int) (a : ℚ)
    (st : station_t) (h : sts[i]? = some st) :
    (station_add_cargo sts i ct origin a).1 =
      sts.set i (station_add_cargo_one st ct (if origin = -1 then i else origin.toNat) a) := by
  simp [station_add_cargo, h]

lemma station_add_cargo_one_append (st : station_t) (ct org : ℕ) (a : ℚ)
    (hk : hasLoadKey st.cargo_loads ct org = false)
    (hcap : st.cargo_loads.length < MAX_CARGO_LOADS) :
    station_add_cargo_one st ct org a =
      { st with cargo_loads := st.cargo_loads ++ [⟨ct, a, org⟩] } := by
  unfold station_add_cargo_one
  rw [(findMergeLoad_none_iff _ _ _ _).mpr hk]
  dsimp only
  rw [if_pos hcap]

lemma loadKeyCount_append_match (ls : List station_load_t) (ct org : ℕ) (a : ℚ) :
    loadKeyCount (ls ++ [⟨ct, a, org⟩]) ct org = loadKeyCount ls ct org + 1 := by
  simp [loadKeyCount, List.filter_append]

lemma loadKeySum_append_match (ls : List station_load_t) (ct org : ℕ) (a : ℚ) :
    loadKeySum (ls ++ [⟨ct, a, org⟩]) ct org = loadKeySum ls ct org + a := by
  rw [loadKeySum_append]
  simp [loadKeySum]

lemma hasLoadKey_append_match (ls : List station_load_t) (ct org : ℕ) (a : ℚ) :
    hasLoadKey (ls ++ [⟨ct, a, org⟩]) ct org = true := by
  simp [hasLoadKey]

lemma station_add_cargo_one_merge_twice (st : station_t) (ct org : ℕ) (a1 a2 : ℚ)
    (hk : hasLoadKey st.cargo_loads ct org = false)
    (hcap : st.cargo_loads.length < MAX_CARGO_LOADS) :
    loadKeyCount
        (station_add_cargo_one (station_add_cargo_one st ct org a1) ct org a2).cargo_loads
        ct org = 1 ∧
    loadKeySum
        (station_add_cargo_one (station_add_cargo_one st ct org a1) ct org a2).cargo_loads
        ct org = a1 + a2 := by
  rw [station_add_cargo_one_append st ct org a1 hk hcap]
  have hk1 : hasLoadKey (st.cargo_loads ++ [⟨ct, a1, org⟩]) ct org = true :=
    hasLoadKey_append_match _ _ _ _
  have hc1 : loadKeyCount (st.cargo_loads ++ [⟨ct, a1, org⟩]) ct org = 1 := by
    rw [loadKeyCount_append_match, hasLoadKey_false_keyCount _ _ _ hk]
  have hs1 : loadKeySum (st.cargo_loads ++ [⟨ct, a1, org⟩]) ct org = a1 := by
    rw [loadKeySum_append_match, hasLoadKey_false_keySum _ _ _ hk]
    ring
  unfold station_add_cargo_one
  cases hf : findMergeLoad (st.cargo_loads ++ [⟨ct, a1, org⟩]) ct org a2 with
  | none =>
    rw [findMergeLoad_none_iff] at hf
    rw [hk1] at hf
    cases hf
  | some ls =>
    dsimp only
    rw [findMergeLoad_some_keyCount _ _ _ _ _ hf, findMergeLoad_some_keySum _ _ _ _ _ hf,
      hc1, hs1]
    exact ⟨rfl, rfl⟩

/-- C7: a station never holds two load entries with the same
(cargo type, origin) key: the station ledger's add operation preserves
the no-duplicate-key invariant; and two `station_add_cargo` calls with
the same station, cargo type and origin accumulate into a single entry
holding the sum of both amounts — provided the station's list is not
already at capacity without a matching entry (the amendment the
counterexample forces: at capacity with no matching entry, both
deliveries are dropped and no entry exists at all). -/
theorem claim_C7_no_duplicate_load_keys :
    (∀ (sts : List station_t) (i ct : ℕ) (origin : Int) (a : ℚ),
      (∀ st ∈ sts, loadKeysNodup st.cargo_loads) →
      ∀ st ∈ (station_add_cargo sts i ct origin a).1, loadKeysNodup st.cargo_loads) ∧
    (∀ (sts : List station_t) (i : ℕ) (st : station_t) (ct org : ℕ) (a1 a2 : ℚ),
      sts[i]? = some st →
      hasLoadKey st.cargo_loads ct org = false →
      st.cargo_loads.length < MAX_CARGO_LOADS →
      ∃ st2,
        ((station_add_cargo (station_add_cargo sts i ct (org : Int) a1).1
            i ct (org : Int) a2).1)[i]? = some st2 ∧
        loadKeyCount st2.cargo_loads ct org = 1 ∧
        loadKeySum st2.cargo_loads ct org = a1 + a2) := by
  constructor
  · intro sts i ct origin a hall st hst
    cases h : sts[i]? with
    | none =>
      have hres : (station_add_cargo sts i ct origin a).1 = sts := by
        simp [station_add_cargo, h]
      rw [hres] at hst
      exact hall st hst
    | some st0 =>
      rw [station_add_cargo_valid_fst sts i ct origin a st0 h] at hst
      rcases List.mem_or_eq_of_mem_set hst with h2 | h2
      · exact hall st h2
      · subst h2
        exact station_add_cargo_one_keysNodup _ _ _ _ (hall st0 (List.getElem?_mem h))
  · intro sts i st ct org a1 a2 h hk hcap
    have hlen : i < sts.length := by
      rw [List.getElem?_eq_some] at h
      exact h.1
    rw [station_add_cargo_nat_org sts i ct org a1 st h]
    have hget1 : (sts.set i (station_add_cargo_one st ct org a1))[i]? =
        some (station_add_cargo_one st ct org a1) :=
      List.getElem?_set_self (by simpa using hlen)
    rw [station_add_cargo_nat_org _ i ct org a2 _ hget1]
    refine ⟨station_add_cargo_one (station_add_cargo_one st ct org a1) ct org a2,
      List.getElem?_set_self (by simpa using hlen), ?_, ?_⟩
    · exact (station_add_cargo_one_merge_twice st ct org a1 a2 hk hcap).1
    · exact (station_add_cargo_one_merge_twice st ct org a1 a2 hk hcap).2

/-- Witness for C7 at a concrete input: one empty station, two
deliveries of cargo type 5 from origin 7 with amounts 2 and 3. -/
theorem claim_C7_witness :
    (∀ st ∈ (station_add_cargo [emptyStation] 0 5 (7 : Int) 2).1,
      loadKeysNodup st.cargo_loads) ∧
    (∃ st2,
      ((station_add_cargo (station_add_cargo [emptyStation] 0 5 ((7 : ℕ) : Int) 2).1
          0 5 ((7 : ℕ) : Int) 3).1)[0]? = some st2 ∧
      loadKeyCount st2.cargo_loads 5 7 = 1 ∧
      loadKeySum st2.cargo_loads 5 7 = 2 + 3) := by
  constructor
  · exact claim_C7_no_duplicate_load_keys.1 [emptyStation] 0 5 (7 : Int) 2
      (by intro st hst; rcases List.mem_singleton.mp hst with rfl; simp [loadKeysNodup, emptyStation])
  · exact claim_C7_no_duplicate_load_keys.2 [emptyStation] 0 emptyStation 5 7 2 3
      rfl (by decide) (by decide)

/-- Counterexample for C7 as frozen: on a station already holding 32
loads and none with key (100, 7), two adds with that key leave the
station unchanged and no entry with the key exists, so no "single entry
whose amount is the sum of both calls' amounts" is ever created. -/
theorem claim_C7_counterexample :
    (station_add_cargo (station_add_cargo [fullStation] 0 100 7 2).1 0 100 7 3).1 =
      [fullStation] ∧
    loadKeyCount fullStation.cargo_loads 100 7 = 0 := by
  constructor
  · decide
  · decide

/-- C9 (amended): on a station whose load list already holds
`MAX_CARGO_LOADS` entries and no entry matching the effective
(cargo type, origin) key, the delivery is dropped without mutating any
station state — and, since `error_code_t` defines no capacity kind, the
drop is reported through no error at all (silent degradation). -/
theorem claim_C9_capacity_drop_silent (sts : List station_t) (i ct : ℕ) (origin : Int)
    (a : ℚ) (st : station_t) (h : sts[i]? = some st)
    (hk : hasLoadKey st.cargo_loads ct (if origin = -1 then i else origin.toNat) = false)
    (hfull : st.cargo_loads.length = MAX_CARGO_LOADS) :
    station_add_cargo sts i ct origin a = (sts, none) := by
  have hst : station_add_cargo_one st ct (if origin = -1 then i else origin.toNat) a = st :=
    station_add_cargo_one_full _ _ _ _ hk (by omega)
  simp [station_add_cargo, h, hst, list_set_self sts i st h]

/-- Witness for C9 (amended) at a concrete input: a full station,
delivery of cargo type 100 from origin 3. -/
theorem claim_C9_witness :
    station_add_cargo [fullStation] 0 100 (3 : Int) 2 = ([fullStation], none) :=
  claim_C9_capacity_drop_silent [fullStation] 0 100 (3 : Int) 2 fullStation rfl
    (by decide) (by decide)

/-- Counterexample for C9 as frozen: the dropped delivery on a full
station is not reported through the error-reporting path — the call
reports no error code at all (`error_code_t` has only the three
index/type/accept kinds, none for capacity exhaustion). -/
theorem claim_C9_counterexample :
    station_add_cargo [fullStation] 0 100 7 5 = ([fullStation], none) := by
  decide

/-- C10: a `station_add_cargo` call with `origin = -1` behaves exactly
as a call naming the destination station itself as origin, and every
load entry it creates or merges (any entry not already present) records
the destination station index as its origin. -/
theorem claim_C10_origin_defaults_to_self (sts : List station_t) (i ct : ℕ) (a : ℚ) :
    station_add_cargo sts i ct (-1) a = station_add_cargo sts i ct ((i : ℕ) : Int) a ∧
    (∀ st st2, sts[i]? = some st →
      ((station_add_cargo sts i ct (-1) a).1)[i]? = some st2 →
      ∀ l ∈ st2.cargo_loads, l ∈ st.cargo_loads ∨ (l.cargo_type = ct ∧ l.origin = i)) := by
  constructor
  · cases h : sts[i]? with
    | none => simp [station_add_cargo, h]
    | some st =>
      rw [station_add_cargo_neg_one sts i ct a st h,
        station_add_cargo_nat_org sts i ct i a st h]
  · intro st st2 h hget
    rw [station_add_cargo_neg_one sts i ct a st h] at hget
    have hlen : i < sts.length := by
      rw [List.getElem?_eq_some] at h
      exact h.1
    rw [List.getElem?_set_self (by simpa using hlen), Option.some_inj] at hget
    subst hget
    exact station_add_cargo_one_mem st ct i a

/-- Witness for C10 at a concrete input: one empty station, cargo
type 5, amount 2, origin -1: the created entry records origin 0, the
station's own index. -/
theorem claim_C10_witness :
    station_add_cargo [emptyStation] 0 5 (-1) 2 =
      station_add_cargo [emptyStation] 0 5 ((0 : ℕ) : Int) 2 ∧
    (∀ l ∈ (station_add_cargo_one emptyStation 5 0 2).cargo_loads,
      l ∈ emptyStation.cargo_loads ∨ (l.cargo_type = 5 ∧ l.origin = 0)) := by
  refine ⟨(claim_C10_origin_defaults_to_self [emptyStation] 0 5 2).1, ?_⟩
  exact (claim_C10_origin_defaults_to_self [emptyStation] 0 5 2).2 emptyStation
    (station_add_cargo_one emptyStation 5 0 2) rfl (by decide)

-- Helper lemmas on the acceptance gateway and the production engine.

lemma accept_cargo_bad_index (w : world_t) (i acc : ℕ) (a : ℚ)
    (h1 : w.industries[i]? = none) :
    industry_accept_cargo w i acc a = (w, some .ERR_INDUSTRY_BAD_INDEX) := by
  simp [industry_accept_cargo, h1]

lemma accept_cargo_bad_type_unresolvable (w : world_t) (i acc : ℕ) (a : ℚ)
    (ind : industry_t) (h1 : w.industries[i]? = some ind)
    (h2 : w.industry_types[ind.type]? = none) :
    industry_accept_cargo w i acc a = (w, some .ERR_INDUSTRY_BAD_TYPE) := by
  simp [industry_accept_cargo, h1, h2]

lemma accept_cargo_bad_type_unknown (w : world_t) (i acc : ℕ) (a : ℚ)
    (ind : industry_t) (t : industry_type_t) (h1 : w.industries[i]? = some ind)
    (h2 : w.industry_types[ind.type]? = some t)
    (h3 : t.supply_type = .ISUPTYPE_UNKNOWN) :
    industry_accept_cargo w i acc a = (w, some .ERR_INDUSTRY_BAD_TYPE) := by
  simp [industry_accept_cargo, h1, h2, h3]

lemma accept_cargo_bad_accept_oob (w : world_t) (i acc : ℕ) (a : ℚ)
    (ind : industry_t) (t : industry_type_t) (h1 : w.industries[i]? = some ind)
    (h2 : w.industry_types[ind.type]? = some t)
    (h3 : t.supply_type ≠ .ISUPTYPE_UNKNOWN) (h4 : ¬ acc < MAX_INDUS_MATS) :
    industry_accept_cargo w i acc a = (w, some .ERR_INDUSTRY_BAD_ACCEPT) := by
  simp [industry_accept_cargo, h1, h2, h3, h4]

lemma accept_cargo_bad_accept_sentinel (w : world_t) (i acc : ℕ) (a : ℚ)
    (ind : industry_t) (t : industry_type_t) (hlt : acc < MAX_INDUS_MATS)
    (h1 : w.industries[i]? = some ind) (h2 : w.industry_types[ind.type]? = some t)
    (h3 : t.supply_type ≠ .ISUPTYPE_UNKNOWN) (h4 : t.accepts ⟨acc, hlt⟩ = none) :
    industry_accept_cargo w i acc a = (w, some .ERR_INDUSTRY_BAD_ACCEPT) := by
  simp [industry_accept_cargo, h1, h2, h3, hlt, h4]

lemma accept_cargo_success (w : world_t) (i acc : ℕ) (a : ℚ)
    (ind : industry_t) (t : industry_type_t) (c : ℕ) (hlt : acc < MAX_INDUS_MATS)
    (h1 : w.industries[i]? = some ind) (h2 : w.industry_types[ind.type]? = some t)
    (h3 : t.supply_type ≠ .ISUPTYPE_UNKNOWN) (h4 : t.accepts ⟨acc, hlt⟩ = some c) :
    industry_accept_cargo w i acc a =
      ({ w with industries := w.industries.set i (accepted_industry ind t ⟨acc, hlt⟩ a) },
        none) := by
  simp [industry_accept_cargo, accepted_industry, h1, h2, h3, hlt, h4]

lemma sum_update_add (f : Fin MAX_INDUS_MATS → ℚ) (i : Fin MAX_INDUS_MATS) (d : ℚ) :
    (∑ s : Fin MAX_INDUS_MATS, Function.update f i (f i + d) s) =
      (∑ s : Fin MAX_INDUS_MATS, f s) + d := by
  rw [Finset.sum_update_of_mem (Finset.mem_univ i), Finset.sdiff_singleton_eq_erase,
    ← Finset.add_sum_erase _ f (Finset.mem_univ i)]
  ring

lemma mp_foldl_material (ap : ℕ → ℕ → Bool) (self : ℕ) (px py : ℚ)
    (ty : industry_type_t) (amt : ℚ) (l : List (Fin MAX_INDUS_MATS))
    (p : industry_t × List station_t) :
    ((l.foldl (mp_step ap self px py ty amt) p).1.material = p.1.material) ∧
    ((l.foldl (mp_step ap self px py ty amt) p).1.material_tot = p.1.material_tot) := by
  induction l generalizing p with
  | nil => exact ⟨rfl, rfl⟩
  | cons s l ih =>
    rw [List.foldl_cons]
    exact ih (mp_step ap self px py ty amt p s)

lemma make_production_material (ap : ℕ → ℕ → Bool) (self : ℕ)
    (sts : List station_t) (indus : industry_t) (ty : industry_type_t) (amt : ℚ) :
    ((industry_make_production ap self sts indus ty amt).1.material = indus.material) ∧
    ((industry_make_production ap self sts indus ty amt).1.material_tot =
      indus.material_tot) := by
  unfold industry_make_production
  exact mp_foldl_material ap self indus.pos_x indus.pos_y ty amt (declaredSupplies ty)
    (indus, sts)

lemma consumed_spend_inv (indus : industry_t) (nm : Fin MAX_INDUS_MATS → ℚ)
    (hinv : material_inv indus) :
    material_inv
      { indus with
        material := nm,
        material_tot := indus.material_tot -
          ((List.finRange MAX_INDUS_MATS).map (fun s => indus.material s - nm s)).sum } := by
  unfold material_inv at hinv ⊢
  dsimp only
  rw [← Fin.sum_univ_def, Finset.sum_sub_distrib]
  rw [hinv]
  ring

lemma check_production_material (ap : ℕ → ℕ → Bool) (self : ℕ) (sts : List station_t)
    (indus : industry_t) (ty : industry_type_t) :
    ((industry_check_production ap self sts indus ty).1.material =
      (production_decision indus ty).2) ∧
    ((industry_check_production ap self sts indus ty).1.material_tot =
      indus.material_tot -
        ((List.finRange MAX_INDUS_MATS).map
          (fun s => indus.material s - (production_decision indus ty).2 s)).sum) := by
  unfold industry_check_production
  split
  · constructor
    · rw [(make_production_material _ _ _ _ _ _).1]
      rfl
    · rw [(make_production_material _ _ _ _ _ _).2]
      rfl
  · exact ⟨rfl, rfl⟩

lemma industry_spend_eq (indus : industry_t) (ty : industry_type_t) :
    (industry_spend indus ty).material = (production_decision indus ty).2 ∧
    (industry_spend indus ty).material_tot = indus.material_tot -
      ((List.finRange MAX_INDUS_MATS).map
        (fun s => indus.material s - (production_decision indus ty).2 s)).sum :=
  ⟨rfl, rfl⟩

/-- C1: the `material_tot` field always equals the sum of the per-slot
material values: the invariant is preserved by every
`industry_accept_cargo` call (successful or not) and by the material
consumption of every `industry_check_production` call. -/
theorem claim_C1_material_tot_invariant :
    (∀ (w : world_t) (i acc : ℕ) (a : ℚ),
      (∀ ind ∈ w.industries, material_inv ind) →
      ∀ ind ∈ (industry_accept_cargo w i acc a).1.industries, material_inv ind) ∧
    (∀ (ap : ℕ → ℕ → Bool) (self : ℕ) (sts : List station_t) (indus : industry_t)
      (ty : industry_type_t),
      material_inv indus →
      material_inv (industry_check_production ap self sts indus ty).1) := by
  constructor
  · intro w i acc a hall ind hind
    cases h1 : w.industries[i]? with
    | none =>
      rw [accept_cargo_bad_index w i acc a h1] at hind
      exact hall ind hind
    | some ind0 =>
      cases h2 : w.industry_types[ind0.type]? with
      | none =>
        rw [accept_cargo_bad_type_unresolvable w i acc a ind0 h1 h2] at hind
        exact hall ind hind
      | some t =>
        by_cases h3 : t.supply_type = .ISUPTYPE_UNKNOWN
        · rw [accept_cargo_bad_type_unknown w i acc a ind0 t h1 h2 h3] at hind
          exact hall ind hind
        · by_cases hlt : acc < MAX_INDUS_MATS
          · cases h4 : t.accepts ⟨acc, hlt⟩ with
            | none =>
              rw [accept_cargo_bad_accept_sentinel w i acc a ind0 t hlt h1 h2 h3 h4] at hind
              exact hall ind hind
            | some c =>
              rw [accept_cargo_success w i acc a ind0 t c hlt h1 h2 h3 h4] at hind
              rcases List.mem_or_eq_of_mem_set hind with h5 | h5
              · exact hall ind h5
              · subst h5
                have hinv0 := hall ind0 (List.getElem?_mem h1)
                unfold material_inv at hinv0 ⊢
                unfold accepted_industry
                dsimp only
                rw [sum_update_add, hinv0]
          · rw [accept_cargo_bad_accept_oob w i acc a ind0 t h1 h2 h3 hlt] at hind
            exact hall ind hind
  · intro ap self sts indus ty hinv
    have h := check_production_material ap self sts indus ty
    have h2 := consumed_spend_inv indus (production_decision indus ty).2 hinv
    unfold material_inv at h2 ⊢
    rw [h.1, h.2]
    exact h2

/-- Witness for C1 at a concrete input: the §8 scenario world, a
successful delivery of 60 units into accept slot 0, followed by a
production check; the invariant holds throughout. -/
theorem claim_C1_witness :
    (∀ ind ∈ (industry_accept_cargo wEx 0 0 60).1.industries, material_inv ind) ∧
    material_inv (industry_check_production (fun _ _ => true) 0 [emptyStation]
      indEx tyBoostEx).1 := by
  constructor
  · exact claim_C1_material_tot_invariant.1 wEx 0 0 60
      (by
        intro ind hind
        unfold material_inv
        fin_cases hind <;> simp [indEx, wEx])
  · exact claim_C1_material_tot_invariant.2 (fun _ _ => true) 0 [emptyStation] indEx
      tyBoostEx (by unfold material_inv; simp [indEx])

/-- C8: `industry_accept_cargo` reports `BadIndex` for an out-of-range
industry index, `BadType` for an unresolvable type index or the
`Unknown` policy tag, `BadAccept` for an out-of-range accept slot or
the "no slot" sentinel; on success it adds
`amount * accept_weight[slot]` to `material[slot]` and to
`material_tot`; every failing call returns the world unchanged. -/
theorem claim_C8_accept_cargo_validation (w : world_t) (i acc : ℕ) (a : ℚ) :
    (w.industries[i]? = none →
      industry_accept_cargo w i acc a = (w, some .ERR_INDUSTRY_BAD_INDEX)) ∧
    (∀ ind, w.industries[i]? = some ind → w.industry_types[ind.type]? = none →
      industry_accept_cargo w i acc a = (w, some .ERR_INDUSTRY_BAD_TYPE)) ∧
    (∀ ind t, w.industries[i]? = some ind → w.industry_types[ind.type]? = some t →
      t.supply_type = .ISUPTYPE_UNKNOWN →
      industry_accept_cargo w i acc a = (w, some .ERR_INDUSTRY_BAD_TYPE)) ∧
    (∀ ind t, w.industries[i]? = some ind → w.industry_types[ind.type]? = some t →
      t.supply_type ≠ .ISUPTYPE_UNKNOWN → ¬ acc < MAX_INDUS_MATS →
      industry_accept_cargo w i acc a = (w, some .ERR_INDUSTRY_BAD_ACCEPT)) ∧
    (∀ ind t (hlt : acc < MAX_INDUS_MATS), w.industries[i]? = some ind →
      w.industry_types[ind.type]? = some t → t.supply_type ≠ .ISUPTYPE_UNKNOWN →
      t.accepts ⟨acc, hlt⟩ = none →
      industry_accept_cargo w i acc a = (w, some .ERR_INDUSTRY_BAD_ACCEPT)) ∧
    (∀ ind t c (hlt : acc < MAX_INDUS_MATS), w.industries[i]? = some ind →
      w.industry_types[ind.type]? = some t → t.supply_type ≠ .ISUPTYPE_UNKNOWN →
      t.accepts ⟨acc, hlt⟩ = some c →
      industry_accept_cargo w i acc a =
        ({ w with industries := w.industries.set i (accepted_industry ind t ⟨acc, hlt⟩ a) },
          none)) := by
  refine ⟨fun h1 => accept_cargo_bad_index w i acc a h1,
    fun ind h1 h2 => accept_cargo_bad_type_unresolvable w i acc a ind h1 h2,
    fun ind t h1 h2 h3 => accept_cargo_bad_type_unknown w i acc a ind t h1 h2 h3,
    fun ind t h1 h2 h3 h4 => accept_cargo_bad_accept_oob w i acc a ind t h1 h2 h3 h4,
    fun ind t hlt h1 h2 h3 h4 =>
      accept_cargo_bad_accept_sentinel w i acc a ind t hlt h1 h2 h3 h4,
    fun ind t c hlt h1 h2 h3 h4 =>
      accept_cargo_success w i acc a ind t c hlt h1 h2 h3 h4⟩

/-- Witness for C8 at concrete inputs: each of the three error kinds
and the success case, on the concrete world `wEx`. -/
theorem claim_C8_witness :
    industry_accept_cargo wEx 5 0 1 = (wEx, some .ERR_INDUSTRY_BAD_INDEX) ∧
    industry_accept_cargo wEx 1 0 1 = (wEx, some .ERR_INDUSTRY_BAD_TYPE) ∧
    industry_accept_cargo wEx 2 0 1 = (wEx, some .ERR_INDUSTRY_BAD_TYPE) ∧
    industry_accept_cargo wEx 0 7 1 = (wEx, some .ERR_INDUSTRY_BAD_ACCEPT) ∧
    industry_accept_cargo wEx 0 1 1 = (wEx, some .ERR_INDUSTRY_BAD_ACCEPT) ∧
    (industry_accept_cargo wEx 0 0 60).2 = none ∧
    ((industry_accept_cargo wEx 0 0 60).1.industries[0]?.map industry_t.material_tot) =
      some 60 := by
  have hC := claim_C8_accept_cargo_validation
  refine ⟨(hC wEx 5 0 1).1 rfl,
    (hC wEx 1 0 1).2.1 { indEx with type := 5 } rfl rfl,
    (hC wEx 2 0 1).2.2.1 { indEx with type := 1 } tyUnknownEx rfl rfl rfl,
    (hC wEx 0 7 1).2.2.2.1 indEx tyBoostEx rfl rfl (by decide) (by decide),
    (hC wEx 0 1 1).2.2.2.2.1 indEx tyBoostEx (by decide) rfl rfl (by decide) (by decide),
    ?_, ?_⟩
  · rw [(hC wEx 0 0 60).2.2.2.2.2 indEx tyBoostEx 3 (by decide) rfl rfl (by decide)
      (by decide)]
  · rw [(hC wEx 0 0 60).2.2.2.2.2 indEx tyBoostEx 3 (by decide) rfl rfl (by decide)
      (by decide)]
    norm_num [wEx, indEx, tyBoostEx, accepted_industry]

-- Per-policy unfolding equations, and the minimum characterization.

lemma is_boosted_boost (indus : industry_t) (ty : industry_type_t)
    (h : ty.supply_type = .ISUPTYPE_BOOST) :
    industry_is_boosted indus ty =
      decide (ty.boost_threshold ≤ ((declaredAccepts ty).map indus.material).sum) := by
  unfold industry_is_boosted
  rw [h]

lemma is_boosted_assemble (indus : industry_t) (ty : industry_type_t)
    (h : ty.supply_type = .ISUPTYPE_ASSEMBLE) :
    industry_is_boosted indus ty = false := by
  unfold industry_is_boosted
  rw [h]

lemma is_boosted_convert (indus : industry_t) (ty : industry_type_t)
    (h : ty.supply_type = .ISUPTYPE_CONVERT) :
    industry_is_boosted indus ty =
      (declaredAccepts ty).all (fun s => decide (indus.material s ≠ 0)) := by
  unfold industry_is_boosted
  rw [h]

lemma is_boosted_unknown (indus : industry_t) (ty : industry_type_t)
    (h : ty.supply_type = .ISUPTYPE_UNKNOWN) :
    industry_is_boosted indus ty = false := by
  unfold industry_is_boosted
  rw [h]

lemma production_decision_boost (indus : industry_t) (ty : industry_type_t)
    (h : ty.supply_type = .ISUPTYPE_BOOST) :
    production_decision indus ty =
      (ty.base_production * (if industry_is_boosted indus ty then ty.boost_rate else 1),
       indus.material) := by
  unfold production_decision
  rw [h]

lemma production_decision_assemble (indus : industry_t) (ty : industry_type_t)
    (h : ty.supply_type = .ISUPTYPE_ASSEMBLE) :
    production_decision indus ty =
      if (declaredAccepts ty).all (fun s => decide (0 < indus.material s)) then
        (ratioMin ((declaredAccepts ty).map
            (fun s => indus.material s / ty.accept_weight s)),
         fun s => if s ∈ declaredAccepts ty then
             indus.material s -
               ratioMin ((declaredAccepts ty).map
                 (fun s2 => indus.material s2 / ty.accept_weight s2)) * ty.accept_weight s
           else indus.material s)
      else (0, indus.material) := by
  unfold production_decision
  rw [h]

lemma production_decision_convert (indus : industry_t) (ty : industry_type_t)
    (h : ty.supply_type = .ISUPTYPE_CONVERT) :
    production_decision indus ty =
      (if industry_is_boosted indus ty then
          ((((declaredAccepts ty).filter (fun s => decide (0 < indus.material s))).map
            (fun s => indus.material s * ty.accept_weight s)).sum) * ty.boost_rate
        else
          (((declaredAccepts ty).filter (fun s => decide (0 < indus.material s))).map
            (fun s => indus.material s * ty.accept_weight s)).sum,
       fun s =>
         if s ∈ (declaredAccepts ty).filter (fun s2 => decide (0 < indus.material s2)) then 0
         else indus.material s) := by
  unfold production_decision
  rw [h]

lemma production_decision_unknown (indus : industry_t) (ty : industry_type_t)
    (h : ty.supply_type = .ISUPTYPE_UNKNOWN) :
    production_decision indus ty = (0, indus.material) := by
  unfold production_decision
  rw [h]

lemma foldl_min_le_init (l : List ℚ) (a : ℚ) : l.foldl min a ≤ a := by
  induction l generalizing a with
  | nil => exact le_refl a
  | cons x xs ih =>
    rw [List.foldl_cons]
    exact le_trans (ih (min a x)) (min_le_left a x)

lemma foldl_min_le_mem (l : List ℚ) (a : ℚ) : ∀ x ∈ l, l.foldl min a ≤ x := by
  induction l generalizing a with
  | nil => intro x hx; cases hx
  | cons y ys ih =>
    intro x hx
    rw [List.foldl_cons]
    rcases List.mem_cons.mp hx with rfl | hx2
    · exact le_trans (foldl_min_le_init ys (min a x)) (min_le_right a x)
    · exact ih (min a y) x hx2

lemma foldl_min_mem_or (l : List ℚ) (a : ℚ) : l.foldl min a = a ∨ l.foldl min a ∈ l := by
  induction l generalizing a with
  | nil => exact Or.inl rfl
  | cons y ys ih =>
    rw [List.foldl_cons]
    rcases ih (min a y) with h | h
    · rcases min_cases a y with ⟨hm, _⟩ | ⟨hm, _⟩
      · exact Or.inl (h.trans hm)
      · exact Or.inr (by rw [h, hm]; exact List.mem_cons_self _ _)
    · exact Or.inr (List.mem_cons_of_mem _ h)

lemma ratioMin_le (l : List ℚ) : ∀ x ∈ l, ratioMin l ≤ x := by
  cases l with
  | nil => intro x hx; cases hx
  | cons y ys =>
    intro x hx
    rcases List.mem_cons.mp hx with rfl | hx2
    · exact foldl_min_le_init ys x
    · exact foldl_min_le_mem ys y x hx2

lemma ratioMin_mem (l : List ℚ) (h : l ≠ []) : ratioMin l ∈ l := by
  cases l with
  | nil => exact absurd rfl h
  | cons y ys =>
    rcases foldl_min_mem_or ys y with h2 | h2
    · show ys.foldl min y ∈ y :: ys
      rw [h2]
      exact List.mem_cons_self _ _
    · exact List.mem_cons_of_mem _ h2

/-- C6: `industry_is_boosted` is true for a Boost-policy industry iff
the accumulated material over the declared accept slots reaches
`boost_threshold`; always false for Assemble; true for Convert iff
every declared accept slot holds nonzero material; false for Unknown.
(The embedding is a pure function of the industry and its type, so the
call modifies no material field by construction.) -/
theorem claim_C6_is_boosted_cases (indus : industry_t) (ty : industry_type_t) :
    (ty.supply_type = .ISUPTYPE_BOOST →
      (industry_is_boosted indus ty = true ↔
        ty.boost_threshold ≤ ((declaredAccepts ty).map indus.material).sum)) ∧
    (ty.supply_type = .ISUPTYPE_ASSEMBLE → industry_is_boosted indus ty = false) ∧
    (ty.supply_type = .ISUPTYPE_CONVERT →
      (industry_is_boosted indus ty = true ↔
        ∀ s ∈ declaredAccepts ty, indus.material s ≠ 0)) ∧
    (ty.supply_type = .ISUPTYPE_UNKNOWN → industry_is_boosted indus ty = false) := by
  refine ⟨fun h => ?_, fun h => is_boosted_assemble indus ty h, fun h => ?_,
    fun h => is_boosted_unknown indus ty h⟩
  · rw [is_boosted_boost indus ty h]
    exact decide_eq_true_iff
  · rw [is_boosted_convert indus ty h]
    simp [List.all_eq_true]

/-- Witness for C6 at concrete inputs: the four policies on concrete
industry types and material vectors. -/
theorem claim_C6_witness :
    (industry_is_boosted ind60 tyBoostEx = true ↔
      tyBoostEx.boost_threshold ≤ ((declaredAccepts tyBoostEx).map ind60.material).sum) ∧
    industry_is_boosted indAsmEx tyAssembleEx = false ∧
    (industry_is_boosted indAsmEx tyConvertEx = true ↔
      ∀ s ∈ declaredAccepts tyConvertEx, indAsmEx.material s ≠ 0) ∧
    industry_is_boosted indEx tyUnknownEx = false := by
  refine ⟨(claim_C6_is_boosted_cases ind60 tyBoostEx).1 rfl,
    (claim_C6_is_boosted_cases indAsmEx tyAssembleEx).2.1 rfl,
    (claim_C6_is_boosted_cases indAsmEx tyConvertEx).2.2.1 rfl,
    (claim_C6_is_boosted_cases indEx tyUnknownEx).2.2.2 rfl⟩

/-- C5: a Boost-policy industry always decides at least
`base_production` (for a well-formed catalog entry with nonnegative
base production and boost rate at least 1), decides exactly
`base_production * boost_rate` once the accumulated material reaches
`boost_threshold`, and neither the decision nor the production check
spends any material: `material` and `material_tot` are unchanged. -/
theorem claim_C5_boost_always_produces (ap : ℕ → ℕ → Bool) (self : ℕ)
    (sts : List station_t) (indus : industry_t) (ty : industry_type_t)
    (h : ty.supply_type = .ISUPTYPE_BOOST)
    (hbase : 0 ≤ ty.base_production) (hrate : 1 ≤ ty.boost_rate) :
    ty.base_production ≤ (production_decision indus ty).1 ∧
    (ty.boost_threshold ≤ ((declaredAccepts ty).map indus.material).sum →
      (production_decision indus ty).1 = ty.base_production * ty.boost_rate) ∧
    (industry_check_production ap self sts indus ty).1.material = indus.material ∧
    (industry_check_production ap self sts indus ty).1.material_tot =
      indus.material_tot := by
  have hpd := production_decision_boost indus ty h
  have hnospend : (production_decision indus ty).2 = indus.material := by
    rw [hpd]
  refine ⟨?_, ?_, ?_, ?_⟩
  · rw [hpd]
    dsimp only
    cases industry_is_boosted indus ty
    · simp
    · simpa using mul_le_mul_of_nonneg_left hrate hbase
  · intro hth
    rw [hpd]
    dsimp only
    rw [is_boosted_boost indus ty h, decide_eq_true hth, if_pos rfl]
  · rw [(check_production_material ap self sts indus ty).1, hnospend]
  · rw [(check_production_material ap self sts indus ty).2, hnospend]
    simp

/-- Witness for C5 at a concrete input: the §8 scenario type (base 10,
rate 2, threshold 50) on an empty industry and on one holding 60
material units. -/
theorem claim_C5_witness :
    (tyBoostEx.base_production ≤ (production_decision indEx tyBoostEx).1 ∧
      (industry_check_production (fun _ _ => true) 0 [emptyStation] indEx
        tyBoostEx).1.material = indEx.material) ∧
    ((production_decision ind60 tyBoostEx).1 =
      tyBoostEx.base_production * tyBoostEx.boost_rate) := by
  constructor
  · exact ⟨(claim_C5_boost_always_produces (fun _ _ => true) 0 [emptyStation] indEx
        tyBoostEx rfl (by norm_num [tyBoostEx]) (by norm_num [tyBoostEx])).1,
      (claim_C5_boost_always_produces (fun _ _ => true) 0 [emptyStation] indEx
        tyBoostEx rfl (by norm_num [tyBoostEx]) (by norm_num [tyBoostEx])).2.2.1⟩
  · exact (claim_C5_boost_always_produces (fun _ _ => true) 0 [emptyStation] ind60
      tyBoostEx rfl (by norm_num [tyBoostEx]) (by norm_num [tyBoostEx])).2.1
      (by rw [show declaredAccepts tyBoostEx = [0] from by decide]
          norm_num [ind60, tyBoostEx])

/-- C3: the Assemble policy produces only when every declared accept
slot holds strictly positive material; the decided quantity is the
minimum over declared slots of `material[s] / accept_weight[s]` (it is
one of the ratios and bounds all of them from below), and exactly
`quantity * accept_weight[s]` is consumed from every declared slot;
with any declared slot at zero the decision is zero and no material is
consumed, through `industry_check_production` included. -/
theorem claim_C3_assemble_policy (ap : ℕ → ℕ → Bool) (self : ℕ)
    (sts : List station_t) (indus : industry_t) (ty : industry_type_t)
    (h : ty.supply_type = .ISUPTYPE_ASSEMBLE)
    (hw : ∀ s ∈ declaredAccepts ty, 0 < ty.accept_weight s) :
    ((∀ s ∈ declaredAccepts ty, 0 < indus.material s) →
      (production_decision indus ty).1 =
        ratioMin ((declaredAccepts ty).map
          (fun s => indus.material s / ty.accept_weight s)) ∧
      (declaredAccepts ty ≠ [] →
        (production_decision indus ty).1 ∈
          (declaredAccepts ty).map (fun s => indus.material s / ty.accept_weight s) ∧
        ∀ r ∈ (declaredAccepts ty).map (fun s => indus.material s / ty.accept_weight s),
          (production_decision indus ty).1 ≤ r) ∧
      (∀ s ∈ declaredAccepts ty,
        (production_decision indus ty).2 s =
          indus.material s - (production_decision indus ty).1 * ty.accept_weight s) ∧
      (∀ s, s ∉ declaredAccepts ty →
        (production_decision indus ty).2 s = indus.material s)) ∧
    ((∃ s ∈ declaredAccepts ty, indus.material s = 0) →
      (production_decision indus ty).1 = 0 ∧
      (production_decision indus ty).2 = indus.material ∧
      (industry_check_production ap self sts indus ty).1.material = indus.material ∧
      (industry_check_production ap self sts indus ty).1.material_tot =
        indus.material_tot) ∧
    (0 < (production_decision indus ty).1 → ∀ s ∈ declaredAccepts ty,
      0 < indus.material s) ∧
    ((industry_check_production ap self sts indus ty).1.material =
      (production_decision indus ty).2) := by
  have hpa := production_decision_assemble indus ty h
  refine ⟨?_, ?_, ?_, (check_production_material ap self sts indus ty).1⟩
  · intro hall
    have hgate : (declaredAccepts ty).all (fun s => decide (0 < indus.material s)) = true :=
      List.all_eq_true.mpr (fun s hs => decide_eq_true (hall s hs))
    rw [hpa, if_pos hgate]
    refine ⟨rfl, ?_, ?_, ?_⟩
    · intro hne
      have hmapne : (declaredAccepts ty).map
          (fun s => indus.material s / ty.accept_weight s) ≠ [] := by
        simpa using hne
      exact ⟨ratioMin_mem _ hmapne, ratioMin_le _⟩
    · intro s hs
      dsimp only
      rw [if_pos hs]
    · intro s hs
      dsimp only
      rw [if_neg hs]
  · rintro ⟨s, hs, hz⟩
    have hgate : (declaredAccepts ty).all (fun s => decide (0 < indus.material s)) = false := by
      rcases Bool.eq_false_or_eq_true
        ((declaredAccepts ty).all (fun s => decide (0 < indus.material s))) with h2 | h2
      · have := of_decide_eq_true (List.all_eq_true.mp h2 s hs)
        rw [hz] at this
        exact absurd this (lt_irrefl 0)
      · exact h2
    have hdec : production_decision indus ty = (0, indus.material) := by
      rw [hpa, if_neg (by rw [hgate]; exact Bool.false_ne_true)]
    refine ⟨by rw [hdec], by rw [hdec], ?_, ?_⟩
    · rw [(check_production_material ap self sts indus ty).1, hdec]
    · rw [(check_production_material ap self sts indus ty).2, hdec]
      simp
  · intro hpos s hs
    by_cases hgate : (declaredAccepts ty).all (fun s => decide (0 < indus.material s)) = true
    · exact of_decide_eq_true (List.all_eq_true.mp hgate s hs)
    · rw [hpa, if_neg hgate] at hpos
      exact absurd hpos (lt_irrefl 0)

/-- Witness for C3 at the §8 assemble scenario: weights (1, 2),
material (4, 10); the decided quantity is min(4/1, 10/2) = 4 and
consumption leaves (0, 2). With slot 1 emptied instead, the decision is
zero and nothing is consumed. -/
theorem claim_C3_witness :
    (production_decision indAsmEx tyAssembleEx).1 = 4 ∧
    (production_decision indAsmEx tyAssembleEx).2 0 = 0 ∧
    (production_decision indAsmEx tyAssembleEx).2 1 = 2 ∧
    (production_decision { indAsmEx with
      material := fun s => if s = 0 then 4 else 0 } tyAssembleEx).1 = 0 := by
  have hC := claim_C3_assemble_policy (fun _ _ => true) 0 [] indAsmEx tyAssembleEx
    rfl (by decide)
  have hdecls : declaredAccepts tyAssembleEx = [0, 1] := by decide
  have hall : ∀ s ∈ declaredAccepts tyAssembleEx, 0 < indAsmEx.material s := by decide
  have hq : (production_decision indAsmEx tyAssembleEx).1 = 4 := by
    rw [(hC.1 hall).1, hdecls]
    norm_num [ratioMin, indAsmEx, tyAssembleEx]
  refine ⟨hq, ?_, ?_, ?_⟩
  · rw [(hC.1 hall).2.2.1 0 (by rw [hdecls]; decide), hq]
    norm_num [indAsmEx, tyAssembleEx]
  · rw [(hC.1 hall).2.2.1 1 (by rw [hdecls]; decide), hq]
    norm_num [indAsmEx, tyAssembleEx]
  · have hC2 := claim_C3_assemble_policy (fun _ _ => true) 0 []
      { indAsmEx with material := fun s => if s = 0 then 4 else 0 } tyAssembleEx
      rfl (by decide)
    exact (hC2.2.1 (by refine ⟨1, ?_, ?_⟩ <;> decide)).1

/-- C4: the Convert policy decides the sum over declared slots with
positive material of `material[s] * accept_weight[s]`, multiplied by
`boost_rate` exactly when boosted (so boosted output is unboosted
output times `boost_rate` on identical material); contributing slots
are consumed to zero and others untouched; and it produces (a positive
amount) iff at least one declared accept slot holds positive
material. -/
theorem claim_C4_convert_policy (ap : ℕ → ℕ → Bool) (self : ℕ)
    (sts : List station_t) (indus : industry_t) (ty : industry_type_t)
    (h : ty.supply_type = .ISUPTYPE_CONVERT)
    (hw : ∀ s ∈ declaredAccepts ty, 0 < ty.accept_weight s)
    (hrate : 0 < ty.boost_rate) :
    (industry_is_boosted indus ty = true →
      (production_decision indus ty).1 =
        ((((declaredAccepts ty).filter (fun s => decide (0 < indus.material s))).map
          (fun s => indus.material s * ty.accept_weight s)).sum) * ty.boost_rate) ∧
    (industry_is_boosted indus ty = false →
      (production_decision indus ty).1 =
        (((declaredAccepts ty).filter (fun s => decide (0 < indus.material s))).map
          (fun s => indus.material s * ty.accept_weight s)).sum) ∧
    (∀ s ∈ (declaredAccepts ty).filter (fun s => decide (0 < indus.material s)),
      (production_decision indus ty).2 s = 0) ∧
    (∀ s, s ∉ (declaredAccepts ty).filter (fun s => decide (0 < indus.material s)) →
      (production_decision indus ty).2 s = indus.material s) ∧
    (0 < (production_decision indus ty).1 ↔
      ∃ s ∈ declaredAccepts ty, 0 < indus.material s) ∧
    ((industry_check_production ap self sts indus ty).1.material =
      (production_decision indus ty).2) := by
  have hpc := production_decision_convert indus ty h
  have hbase :
      ((declaredAccepts ty).filter (fun s => decide (0 < indus.material s))) ≠ [] →
      0 < (((declaredAccepts ty).filter (fun s => decide (0 < indus.material s))).map
        (fun s => indus.material s * ty.accept_weight s)).sum := by
    intro hne
    apply List.sum_pos
    · intro x hx
      rcases List.mem_map.mp hx with ⟨s, hs, rfl⟩
      have hsd := List.mem_filter.mp hs
      exact mul_pos (of_decide_eq_true hsd.2) (hw s hsd.1)
    · simpa using hne
  refine ⟨?_, ?_, ?_, ?_, ?_, (check_production_material ap self sts indus ty).1⟩
  · intro hb
    rw [hpc]
    dsimp only
    rw [hb, if_pos rfl]
  · intro hb
    rw [hpc]
    dsimp only
    rw [hb]
    simp
  · intro s hs
    rw [hpc]
    dsimp only
    rw [if_pos hs]
  · intro s hs
    rw [hpc]
    dsimp only
    rw [if_neg hs]
  · constructor
    · intro hpos
      by_contra hno
      push_neg at hno
      have hfe : ((declaredAccepts ty).filter (fun s => decide (0 < indus.material s))) = [] := by
        rw [List.filter_eq_nil_iff]
        intro s hs
        simpa using hno s hs
      rw [hpc] at hpos
      dsimp only at hpos
      rw [hfe] at hpos
      simp at hpos
    · rintro ⟨s, hs, hpos⟩
      have hne : ((declaredAccepts ty).filter (fun s => decide (0 < indus.material s))) ≠ [] := by
        intro hfe
        have : s ∈ (declaredAccepts ty).filter (fun s => decide (0 < indus.material s)) :=
          List.mem_filter.mpr ⟨hs, decide_eq_true hpos⟩
        rw [hfe] at this
        cases this
      have hbpos := hbase hne
      rw [hpc]
      dsimp only
      cases hb : industry_is_boosted indus ty
      · simpa using hbpos
      · simpa using mul_pos hbpos hrate

/-- Witness for C4 at a concrete input: material (4, 10) on the
two-slot Convert type with boost rate 3 (boosted, since every slot is
nonzero), and material (4, 0) (not boosted). -/
theorem claim_C4_witness :
    ((production_decision indAsmEx tyConvertEx).1 =
      ((((declaredAccepts tyConvertEx).filter
          (fun s => decide (0 < indAsmEx.material s))).map
        (fun s => indAsmEx.material s * tyConvertEx.accept_weight s)).sum) *
        tyConvertEx.boost_rate) ∧
    (0 < (production_decision indAsmEx tyConvertEx).1 ↔
      ∃ s ∈ declaredAccepts tyConvertEx, 0 < indAsmEx.material s) := by
  have hC := claim_C4_convert_policy (fun _ _ => true) 0 [] indAsmEx tyConvertEx
    rfl (by decide) (by norm_num [tyConvertEx, tyAssembleEx, tyBoostEx])
  exact ⟨hC.1 (by decide), hC.2.2.2.2.1⟩

-- Helper lemmas on the cargo distributor.

lemma stationsAdd_length (sts : List station_t) (i ct org : ℕ) (a : ℚ) :
    (stationsAdd sts i ct org a).length = sts.length := by
  unfold stationsAdd
  cases h : sts[i]? with
  | none => rfl
  | some st => simp

lemma stationsAdd_get_ne (sts : List station_t) (i j ct org : ℕ) (a : ℚ) (hne : j ≠ i) :
    (stationsAdd sts i ct org a)[j]? = sts[j]? := by
  unfold stationsAdd
  cases h : sts[i]? with
  | none => rfl
  | some st => exact List.getElem?_set_ne (Ne.symm hne)

lemma stationsAdd_get_eq (sts : List station_t) (i ct org : ℕ) (a : ℚ) (st : station_t)
    (h : sts[i]? = some st) :
    (stationsAdd sts i ct org a)[i]? = some (station_add_cargo_one st ct org a) := by
  have hlen : i < sts.length := by
    rw [List.getElem?_eq_some] at h
    exact h.1
  unfold stationsAdd
  rw [h]
  exact List.getElem?_set_self (by simpa using hlen)

lemma same_shape_refl (sts : List station_t) : same_shape sts sts :=
  ⟨rfl, fun _ => ⟨rfl, rfl⟩⟩

lemma same_shape_trans (s1 s2 s3 : List station_t) (h1 : same_shape s1 s2)
    (h2 : same_shape s2 s3) : same_shape s1 s3 :=
  ⟨h1.1.trans h2.1, fun i =>
    ⟨(h1.2 i).1.trans (h2.2 i).1, (h1.2 i).2.trans (h2.2 i).2⟩⟩

lemma stationsAdd_same_shape (sts : List station_t) (i ct org : ℕ) (a : ℚ) :
    same_shape sts (stationsAdd sts i ct org a) := by
  refine ⟨(stationsAdd_length sts i ct org a).symm, ?_⟩
  intro j
  by_cases hji : j = i
  · subst hji
    cases h : sts[j]? with
    | none =>
      have hr : stationsAdd sts j ct org a = sts := by
        unfold stationsAdd
        rw [h]
      rw [hr, h]
      exact ⟨rfl, rfl⟩
    | some st =>
      rw [stationsAdd_get_eq sts j ct org a st h]
      refine ⟨?_, ?_⟩ <;> simp [Option.map_some']
      · exact ((station_add_cargo_one_pos st ct org a).1).symm
      · exact ((station_add_cargo_one_pos st ct org a).2).symm
  · rw [stationsAdd_get_ne sts i j ct org a hji]
    exact ⟨rfl, rfl⟩

lemma matching_stations_congr (ap : ℕ → ℕ → Bool) (sts sts2 : List station_t)
    (px py r : ℚ) (ct : ℕ) (h : same_shape sts sts2) :
    matching_stations ap sts px py r ct = matching_stations ap sts2 px py r ct := by
  unfold matching_stations
  rw [← h.1]
  apply List.filter_congr
  intro i _
  have h2x := (h.2 i).1
  have h2y := (h.2 i).2
  cases h3 : sts[i]? with
  | none =>
    rw [h3] at h2x
    cases h4 : sts2[i]? with
    | none => rfl
    | some st2 =>
      rw [h4] at h2x
      simp at h2x
  | some st =>
    rw [h3] at h2x h2y
    cases h4 : sts2[i]? with
    | none =>
      rw [h4] at h2x
      simp at h2x
    | some st2 =>
      rw [h4] at h2x h2y
      simp only [Option.map_some', Option.some_inj] at h2x h2y
      dsimp only
      rw [h2x, h2y]

lemma matching_stations_mem_get (ap : ℕ → ℕ → Bool) (sts : List station_t)
    (px py r : ℚ) (ct j : ℕ) (hj : j ∈ matching_stations ap sts px py r ct) :
    ∃ st, sts[j]? = some st := by
  unfold matching_stations at hj
  have h2 := (List.mem_filter.mp hj).2
  cases h3 : sts[j]? with
  | some st => exact ⟨st, rfl⟩
  | none =>
    rw [h3] at h2
    simp at h2

lemma matching_stations_nodup (ap : ℕ → ℕ → Bool) (sts : List station_t)
    (px py r : ℚ) (ct : ℕ) : (matching_stations ap sts px py r ct).Nodup :=
  (List.nodup_range _).filter _

lemma foldAdd_same_shape (js : List ℕ) (ct org : ℕ) (a : ℚ) (sts : List station_t) :
    same_shape sts (js.foldl (fun sts2 i => stationsAdd sts2 i ct org a) sts) := by
  induction js generalizing sts with
  | nil => exact same_shape_refl sts
  | cons k ks ih =>
    rw [List.foldl_cons]
    exact same_shape_trans _ _ _ (stationsAdd_same_shape sts k ct org a)
      (ih (stationsAdd sts k ct org a))

lemma foldAdd_get_not_mem (js : List ℕ) (ct org : ℕ) (a : ℚ) (sts : List station_t)
    (j : ℕ) (hj : j ∉ js) :
    (js.foldl (fun sts2 i => stationsAdd sts2 i ct org a) sts)[j]? = sts[j]? := by
  induction js generalizing sts with
  | nil => rfl
  | cons k ks ih =>
    rw [List.foldl_cons,
      ih (stationsAdd sts k ct org a) (fun h => hj (List.mem_cons_of_mem _ h))]
    exact stationsAdd_get_ne sts k j ct org a
      (fun h => hj (h ▸ List.mem_cons_self _ _))

lemma foldAdd_get_mem (js : List ℕ) (ct org : ℕ) (a : ℚ) (sts : List station_t)
    (j : ℕ) (st : station_t) (hnd : js.Nodup) (hj : j ∈ js) (h : sts[j]? = some st) :
    (js.foldl (fun sts2 i => stationsAdd sts2 i ct org a) sts)[j]? =
      some (station_add_cargo_one st ct org a) := by
  induction js generalizing sts with
  | nil => cases hj
  | cons k ks ih =>
    rw [List.foldl_cons]
    rcases List.mem_cons.mp hj with rfl | hj2
    · rw [foldAdd_get_not_mem ks ct org a _ j (List.nodup_cons.mp hnd).1]
      exact stationsAdd_get_eq sts j ct org a st h
    · have hjk : j ≠ k := fun he => (List.nodup_cons.mp hnd).1 (he ▸ hj2)
      exact ih (stationsAdd sts k ct org a) (List.nodup_cons.mp hnd).2 hj2
        (by rw [stationsAdd_get_ne sts k j ct org a hjk]; exact h)

lemma distribute_slot_same_shape (sts : List station_t) (ms : List ℕ) (ct org : ℕ)
    (ca : ℚ) : same_shape sts (distribute_slot sts ms ct org ca) := by
  unfold distribute_slot
  exact foldAdd_same_shape ms ct org (ca / ms.length) sts

lemma mp_step_snd (ap : ℕ → ℕ → Bool) (self : ℕ) (px py : ℚ) (ty : industry_type_t)
    (amount : ℚ) (p : industry_t × List station_t) (s : Fin MAX_INDUS_MATS) :
    (mp_step ap self px py ty amount p s).2 =
      distribute_slot p.2
        (matching_stations ap p.2 px py ty.reach ((ty.supplies s).getD 0))
        ((ty.supplies s).getD 0) self (amount * ty.supply_weight s) := rfl

lemma mp_step_produced (ap : ℕ → ℕ → Bool) (self : ℕ) (px py : ℚ) (ty : industry_type_t)
    (amount : ℚ) (p : industry_t × List station_t) (s : Fin MAX_INDUS_MATS) :
    (mp_step ap self px py ty amount p s).1.produced =
      Function.update p.1.produced s (p.1.produced s + amount * ty.supply_weight s) := rfl

lemma mp_step_transported (ap : ℕ → ℕ → Bool) (self : ℕ) (px py : ℚ)
    (ty : industry_type_t) (amount : ℚ) (p : industry_t × List station_t)
    (s : Fin MAX_INDUS_MATS) :
    (mp_step ap self px py ty amount p s).1.transported =
      (if (matching_stations ap p.2 px py ty.reach ((ty.supplies s).getD 0)).isEmpty
       then p.1.transported else Function.update p.1.transported s 1) := rfl

lemma mp_fold_stats (ap : ℕ → ℕ → Bool) (self : ℕ) (px py : ℚ) (ty : industry_type_t)
    (amount : ℚ) (sts0 : List station_t) (l : List (Fin MAX_INDUS_MATS)) :
    ∀ p : industry_t × List station_t, l.Nodup → same_shape sts0 p.2 →
      same_shape sts0 (l.foldl (mp_step ap self px py ty amount) p).2 ∧
      (∀ s ∈ l,
        (l.foldl (mp_step ap self px py ty amount) p).1.produced s =
          p.1.produced s + amount * ty.supply_weight s ∧
        (l.foldl (mp_step ap self px py ty amount) p).1.transported s =
          (if (matching_stations ap sts0 px py ty.reach ((ty.supplies s).getD 0)).isEmpty
           then p.1.transported s else 1)) ∧
      (∀ s, s ∉ l →
        (l.foldl (mp_step ap self px py ty amount) p).1.produced s = p.1.produced s ∧
        (l.foldl (mp_step ap self px py ty amount) p).1.transported s =
          p.1.transported s) := by
  induction l with
  | nil =>
    intro p _ hsh
    exact ⟨hsh, by simp, fun s _ => ⟨rfl, rfl⟩⟩
  | cons k ks ih =>
    intro p hnd hsh
    have hknk : k ∉ ks := (List.nodup_cons.mp hnd).1
    have hksnd : ks.Nodup := (List.nodup_cons.mp hnd).2
    have hshape2 : same_shape p.2 (mp_step ap self px py ty amount p k).2 := by
      rw [mp_step_snd]
      exact distribute_slot_same_shape _ _ _ _ _
    have hsh2 : same_shape sts0 (mp_step ap self px py ty amount p k).2 :=
      same_shape_trans _ _ _ hsh hshape2
    have hms : matching_stations ap p.2 px py ty.reach ((ty.supplies k).getD 0) =
        matching_stations ap sts0 px py ty.reach ((ty.supplies k).getD 0) :=
      (matching_stations_congr ap sts0 p.2 px py ty.reach _ hsh).symm
    obtain ⟨H1, H2, H3⟩ := ih (mp_step ap self px py ty amount p k) hksnd hsh2
    rw [List.foldl_cons]
    have hstepP : ∀ s : Fin MAX_INDUS_MATS, s ≠ k →
        (mp_step ap self px py ty amount p k).1.produced s = p.1.produced s := by
      intro s hsk
      rw [mp_step_produced, Function.update_noteq hsk]
    have hstepT : ∀ s : Fin MAX_INDUS_MATS, s ≠ k →
        (mp_step ap self px py ty amount p k).1.transported s = p.1.transported s := by
      intro s hsk
      rw [mp_step_transported]
      by_cases hE : (matching_stations ap p.2 px py ty.reach
          ((ty.supplies k).getD 0)).isEmpty
      · rw [if_pos hE]
      · rw [if_neg hE, Function.update_noteq hsk]
    refine ⟨H1, ?_, ?_⟩
    · intro s hs
      rcases List.mem_cons.mp hs with rfl | hs2
      · obtain ⟨hP, hT⟩ := H3 s hknk
        refine ⟨?_, ?_⟩
        · rw [hP, mp_step_produced, Function.update_same]
        · rw [hT, mp_step_transported, hms]
          by_cases hE : (matching_stations ap sts0 px py ty.reach
              ((ty.supplies s).getD 0)).isEmpty
          · rw [if_pos hE, if_pos hE]
          · rw [if_neg hE, if_neg hE, Function.update_same]
      · have hsk : s ≠ k := fun he => hknk (he ▸ hs2)
        obtain ⟨hP, hT⟩ := H2 s hs2
        exact ⟨by rw [hP, hstepP s hsk], by rw [hT, hstepT s hsk]⟩
    · intro s hs
      have hsk : s ≠ k := fun he => hs (he ▸ List.mem_cons_self k ks)
      have hsks : s ∉ ks := fun h2 => hs (List.mem_cons_of_mem _ h2)
      obtain ⟨hP, hT⟩ := H3 s hsks
      exact ⟨by rw [hP, hstepP s hsk], by rw [hT, hstepT s hsk]⟩

lemma declaredSupplies_nodup (ty : industry_type_t) : (declaredSupplies ty).Nodup :=
  (List.takeWhile_sublist _).nodup (List.nodup_finRange _)

lemma make_production_stats (ap : ℕ → ℕ → Bool) (self : ℕ) (sts : List station_t)
    (indus : industry_t) (ty : industry_type_t) (amount : ℚ) :
    ∀ s ∈ declaredSupplies ty,
      (industry_make_production ap self sts indus ty amount).1.produced s =
        indus.produced s + amount * ty.supply_weight s ∧
      (industry_make_production ap self sts indus ty amount).1.transported s =
        (if (matching_stations ap sts indus.pos_x indus.pos_y ty.reach
            ((ty.supplies s).getD 0)).isEmpty
         then indus.transported s else 1) := by
  intro s hs
  exact (mp_fold_stats ap self indus.pos_x indus.pos_y ty amount sts
    (declaredSupplies ty) (indus, sts) (declaredSupplies_nodup ty)
    (same_shape_refl sts)).2.1 s hs

lemma matching_stations_singleton (ap : ℕ → ℕ → Bool) (st : station_t) (px py r : ℚ)
    (ct : ℕ) (h : (within_reach px py r st.pos_x st.pos_y && ap 0 ct) = true) :
    matching_stations ap [st] px py r ct = [0] := by
  unfold matching_stations
  simp [List.range_succ, h]

/-- C2 (amended): for `industry_make_production`, every declared supply
slot `s` with `cargo_amount = amount * supply_weight[s]` behaves as
follows. Statistics: `produced[s]` increases by `cargo_amount`, and
`transported[s]` becomes 1 exactly when the matching-station set (in
reach, accepting the slot's cargo type) is nonempty, else it is left
unchanged (contribution 0). Ledger (the slot's distribution step
`distribute_slot`): with no matching stations the station list is
untouched (no ledger entry is created); with `N ≥ 1` matching stations
each matching station that already holds a matching (cargo type,
origin) entry or has spare load-list capacity receives exactly
`cargo_amount / N` into its ledger, non-matching stations are
untouched, and the `N` distributed shares sum to `cargo_amount`. The
capacity proviso is the amendment the counterexample forces: a matching
station at full capacity without a matching entry drops its share. -/
theorem claim_C2_distribution_fairness (ap : ℕ → ℕ → Bool) (self : ℕ)
    (sts : List station_t) (indus : industry_t) (ty : industry_type_t)
    (amount : ℚ) (s : Fin MAX_INDUS_MATS) (ct org : ℕ) (ca : ℚ) :
    (s ∈ declaredSupplies ty →
      (industry_make_production ap self sts indus ty amount).1.produced s =
        indus.produced s + amount * ty.supply_weight s ∧
      (industry_make_production ap self sts indus ty amount).1.transported s =
        (if (matching_stations ap sts indus.pos_x indus.pos_y ty.reach
            ((ty.supplies s).getD 0)).isEmpty
         then indus.transported s else 1)) ∧
    (matching_stations ap sts indus.pos_x indus.pos_y ty.reach ct = [] →
      distribute_slot sts (matching_stations ap sts indus.pos_x indus.pos_y ty.reach ct)
        ct org ca = sts) ∧
    (∀ j ∈ matching_stations ap sts indus.pos_x indus.pos_y ty.reach ct, ∀ st,
      sts[j]? = some st →
      (hasLoadKey st.cargo_loads ct org = true ∨
        st.cargo_loads.length < MAX_CARGO_LOADS) →
      ∃ st2,
        (distribute_slot sts
          (matching_stations ap sts indus.pos_x indus.pos_y ty.reach ct)
          ct org ca)[j]? = some st2 ∧
        loadKeySum st2.cargo_loads ct org = loadKeySum st.cargo_loads ct org +
          ca / (matching_stations ap sts indus.pos_x indus.pos_y ty.reach ct).length) ∧
    (∀ j, j ∉ matching_stations ap sts indus.pos_x indus.pos_y ty.reach ct →
      (distribute_slot sts
        (matching_stations ap sts indus.pos_x indus.pos_y ty.reach ct)
        ct org ca)[j]? = sts[j]?) ∧
    (matching_stations ap sts indus.pos_x indus.pos_y ty.reach ct ≠ [] →
      ((matching_stations ap sts indus.pos_x indus.pos_y ty.reach ct).map
        (fun _ => ca /
          (matching_stations ap sts indus.pos_x indus.pos_y ty.reach ct).length)).sum =
        ca) := by
  refine ⟨make_production_stats ap self sts indus ty amount s, ?_, ?_, ?_, ?_⟩
  · intro hE
    rw [hE]
    rfl
  · intro j hj st hst hcap
    refine ⟨station_add_cargo_one st ct org
      (ca / (matching_stations ap sts indus.pos_x indus.pos_y ty.reach ct).length), ?_, ?_⟩
    · unfold distribute_slot
      exact foldAdd_get_mem _ ct org _ sts j st
        (matching_stations_nodup ap sts indus.pos_x indus.pos_y ty.reach ct) hj hst
    · exact station_add_cargo_one_keySum st ct org _ hcap
  · intro j hj
    unfold distribute_slot
    exact foldAdd_get_not_mem _ ct org _ sts j hj
  · intro hne
    have hlen : (matching_stations ap sts indus.pos_x indus.pos_y ty.reach ct).length ≠ 0 := by
      simpa [List.length_eq_zero] using hne
    have hrepl :
        ((matching_stations ap sts indus.pos_x indus.pos_y ty.reach ct).map
          (fun _ => ca /
            (matching_stations ap sts indus.pos_x indus.pos_y ty.reach ct).length)).sum =
        (matching_stations ap sts indus.pos_x indus.pos_y ty.reach ct).length •
          (ca / (matching_stations ap sts indus.pos_x indus.pos_y ty.reach ct).length) := by
      simp [List.map_const]
    rw [hrepl, nsmul_eq_mul]
    have hq : ((matching_stations ap sts indus.pos_x indus.pos_y ty.reach ct).length : ℚ) ≠ 0 :=
      Nat.cast_ne_zero.mpr hlen
    field_simp

/-- Witness for C2 (amended) at a concrete input: one empty in-reach
station, single declared supply slot of cargo type 100 with weight 1,
amount 5: `produced[0]` gains `5 * 1` and the single matching station's
ledger gains `5 / 1` for key (100, industry 0). -/
theorem claim_C2_witness :
    ((industry_make_production (fun _ _ => true) 0 [stEx] indEx tySupplyEx 5).1.produced 0 =
      indEx.produced 0 + 5 * tySupplyEx.supply_weight 0) ∧
    (∃ st2,
      (distribute_slot [stEx]
        (matching_stations (fun _ _ => true) [stEx] indEx.pos_x indEx.pos_y
          tySupplyEx.reach 100) 100 0 5)[0]? = some st2 ∧
      loadKeySum st2.cargo_loads 100 0 = loadKeySum stEx.cargo_loads 100 0 +
        5 / (matching_stations (fun _ _ => true) [stEx] indEx.pos_x indEx.pos_y
          tySupplyEx.reach 100).length) := by
  have hms : matching_stations (fun _ _ => true) [stEx] indEx.pos_x indEx.pos_y
      tySupplyEx.reach 100 = [0] := by
    apply matching_stations_singleton
    rw [Bool.and_eq_true]
    refine ⟨?_, rfl⟩
    unfold within_reach
    rw [decide_eq_true_eq]
    norm_num [stEx, indEx, tySupplyEx, tyBoostEx]
  have hC := claim_C2_distribution_fairness (fun _ _ => true) 0 [stEx] indEx tySupplyEx
    5 0 100 0 5
  refine ⟨(hC.1 (by decide)).1, ?_⟩
  exact hC.2.2.1 0 (by rw [hms]; exact List.mem_singleton.mpr rfl) stEx rfl
    (Or.inr (by decide))

/-- Counterexample for C2 as frozen: with exactly one matching station
(N = 1) whose load list is full and holds no (100, 0) entry, the
distribution leaves the station list entirely unchanged: the station
receives 0, not `cargo_amount / N = 5 / 1`. -/
theorem claim_C2_counterexample :
    (matching_stations (fun _ _ => true) [fullStation] indEx.pos_x indEx.pos_y
      tySupplyEx.reach 100).length = 1 ∧
    (industry_make_production (fun _ _ => true) 0 [fullStation] indEx tySupplyEx 5).2 =
      [fullStation] ∧
    loadKeySum fullStation.cargo_loads 100 0 = 0 ∧
    (5 : ℚ) / 1 ≠ 0 := by
  have hms : matching_stations (fun _ _ => true) [fullStation] indEx.pos_x indEx.pos_y
      tySupplyEx.reach 100 = [0] := by
    apply matching_stations_singleton
    rw [Bool.and_eq_true]
    refine ⟨?_, rfl⟩
    unfold within_reach
    rw [decide_eq_true_eq]
    norm_num [fullStation, indEx, tySupplyEx, tyBoostEx]
  have hadd : ∀ x : ℚ, station_add_cargo_one fullStation 100 0 x = fullStation := by
    intro x
    exact station_add_cargo_one_full fullStation 100 0 x (by decide) (by decide)
  have hsa : ∀ x : ℚ, stationsAdd [fullStation] 0 100 0 x = [fullStation] := by
    intro x
    have h0 : ([fullStation] : List station_t)[0]? = some fullStation := rfl
    unfold stationsAdd
    rw [h0]
    show ([fullStation] : List station_t).set 0 (station_add_cargo_one fullStation 100 0 x) =
      [fullStation]
    rw [hadd x]
    rfl
  refine ⟨by rw [hms]; rfl, ?_, hasLoadKey_false_keySum _ _ _ (by decide), by norm_num⟩
  unfold industry_make_production
  rw [show declaredSupplies tySupplyEx = [0] from by decide, List.foldl_cons,
    List.foldl_nil, mp_step_snd]
  rw [show ((tySupplyEx.supplies 0).getD 0) = 100 from by decide]
  rw [hms]
  unfold distribute_slot
  rw [List.foldl_cons, List.foldl_nil, hsa]

end Indusferno
